import Mathlib

/-!
Shallow embedding of the eGFRD simulator core of `src/egfrd.py` (module
`egfrd`, class `EGFRDSimulator`), together with theorems settling the
frozen claims about it.

Modelling conventions:
* Positions are rationals (a one-dimensional world); the world's metric,
  boundary wrap, cyclic transpose and pair-CoM computation are external
  collaborators of the core (spec section 6) and are therefore fields of
  the `World` structure.  The model is bulk-only: every shell is
  spherical, so the cylindrical shell container of the source is always
  empty and is omitted.
* Python floats become exact rationals.  Division by zero yields 0 for
  rationals; the degenerate `D1 == D2 == 0` dissociation case (a
  `ZeroDivisionError` in Python, flagged FIXME in the source) is guarded
  explicitly where the source would raise.
* All randomness (the `myrandom.rng` collaborator and the analytic
  Green's-function draws living in `single.py` / `pair.py` / `multi.py`,
  which are not part of `src/`) is determinized into an `Oracle` of
  functions supplied to each operation.
* Python exceptions become an explicit error type `Err`; since a Python
  exception does not roll back mutations already performed, every
  stateful operation returns `Sim × Except Err α` - the state at raise
  time survives.  `assert` statements of the source become explicit
  guards producing `Err.assertionError`.
* Python objects are mutable and aliased (a `Single` sits in
  `self.domains`, in scheduler event payloads, and in local variables at
  once).  The embedding passes values and re-synchronizes the domain
  table after each mutation of a domain object (`sync_domain`); event
  payloads hold the owning domain id, following the index-based scheme
  the spec itself prescribes (section 9).
-/

namespace Egfrd

/-- Event types of the scheduler, from the `_gfrd.EventType` enumeration of
the C++ extension module (modelled from the spec and the uses in
`egfrd.py`). -/
inductive EventType where
  | SINGLE_REACTION
  | SINGLE_ESCAPE
  | BURST
  | IV_EVENT
  | IV_ESCAPE
  | IV_INTERACTION
  | IV_REACTION
  | COM_ESCAPE
  | MULTI_ESCAPE
  | MULTI_UNIMOLECULAR_REACTION
  | MULTI_BIMOLECULAR_REACTION
deriving DecidableEq

/-- Python exceptions raised by the embedded code.  `noSpace` is the
recoverable `NoSpace` condition; `runtimeError` stands for
`RuntimeError`/`SystemError`; `assertionError` for a failing `assert`;
`nameError` for evaluating an undefined name; `keyError` for a missing
dictionary/container key; `notImplemented` for `NotImplementedError`;
`diverge` marks the (unbounded) inner separation loop of
`fire_single_reaction` exceeding its modelling fuel. -/
inductive Err where
  | noSpace
  | runtimeError
  | assertionError
  | nameError
  | keyError
  | notImplemented
  | diverge
deriving DecidableEq

/-- Safety factor from `constants.py`.  Modelled from the spec:
`constants.py` is not under `src/`; the spec only calls it "the safety
factor", the exact value is irrelevant to every claim. -/
def SAFETY : ℚ := 1 + 1/100000

/-- Minimal separation factor from `constants.py` (modelled from the
spec, as for `SAFETY`). -/
def MINIMAL_SEPARATION_FACTOR : ℚ := 1 + 1/10000000

/-- `self.MULTI_SHELL_FACTOR = 0.05` from `EGFRDSimulator.__init__`. -/
def MULTI_SHELL_FACTOR : ℚ := 1/20

/-- `self.SINGLE_SHELL_FACTOR = 1.1` from `EGFRDSimulator.__init__`. -/
def SINGLE_SHELL_FACTOR : ℚ := 11/10

/-- Tolerance `1e-18` of the entry assertion of `fire_single`. -/
def ASSERT_DT_TOL : ℚ := 1/1000000000000000000

/-- Fuel bounding the `while 1` vector-separation loop inside the
dissociation placement of `fire_single_reaction`; the Python loop is
unbounded and its nontermination is modelled by `Err.diverge`. -/
def SEPARATION_FUEL : ℕ := 100

/-- Association-list lookup keyed by numeric id (Python dict /
shell-container access). -/
def lookupL {α : Type} : List (ℕ × α) → ℕ → Option α
  | [], _ => none
  | (k2, v) :: rest, k => if k2 = k then some v else lookupL rest k

/-- Association-list upsert: replace the first binding of the key, or
append a new binding (Python dict assignment / `container.update`). -/
def upsertL {α : Type} : List (ℕ × α) → ℕ → α → List (ℕ × α)
  | [], k, v => [(k, v)]
  | (k2, v2) :: rest, k, v =>
      if k2 = k then (k, v) :: rest else (k2, v2) :: upsertL rest k v

/-- Association-list removal of every binding of the key (Python `del`). -/
def removeL {α : Type} (l : List (ℕ × α)) (k : ℕ) : List (ℕ × α) :=
  l.filter (fun p => p.1 != k)

/-- A chemical species record (external world/model collaborator). -/
structure Species where
  id : ℕ
  radius : ℚ
  D : ℚ
deriving DecidableEq

/-- A particle record (external world collaborator): immutable until
replaced, per the spec's data model. -/
structure Particle where
  position : ℚ
  radius : ℚ
  D : ℚ
  sid : ℕ
deriving DecidableEq

/-- A reaction rule with rate constant `k` and product species ids
(external reaction-rule collaborator). -/
structure Rule where
  k : ℚ
  products : List ℕ
deriving DecidableEq

/-- A (spherical) protective shell: owning domain id `did`, center and
radius. -/
structure Shell where
  did : ℕ
  position : ℚ
  radius : ℚ
deriving DecidableEq

/-- A scheduler event: firing time plus the id of the owning domain (the
payload; the source stores the domain object itself, the embedding uses
the id-based scheme of spec section 9). -/
structure DEvent where
  time : ℚ
  did : ℕ
deriving DecidableEq

/-- The external world collaborator (spec section 6): particle store plus
the geometric primitives the core consumes.  `sqrtQ` stands for the
numeric `math.sqrt` primitive. -/
structure World where
  particles : List (ℕ × Particle)
  species : List Species
  world_size : ℚ
  matrix_size : ℚ
  distance : ℚ → ℚ → ℚ
  apply_boundary : ℚ → ℚ
  cyclic_transpose : ℚ → ℚ → ℚ
  calculate_pair_CoM : ℚ → ℚ → ℚ → ℚ → ℚ
  sqrtQ : ℚ → ℚ

def World.num_particles (w : World) : ℕ := w.particles.length

def World.get_species (w : World) (sid : ℕ) : Option Species :=
  w.species.find? (fun sp => sp.id == sid)

/-- `world.check_overlap((pos, radius), *ignore)`: is some particle other
than the ignored ones closer to `pos` than `radius` plus its own radius? -/
def World.check_overlap (w : World) (pos radius : ℚ) (ignore : List ℕ) : Bool :=
  w.particles.any (fun pr =>
    !(ignore.contains pr.1) && decide (w.distance pos pr.2.position < radius + pr.2.radius))

/-- `world.update_particle`: replace the particle bound to `pid`. -/
def World.update_particle (w : World) (pid : ℕ) (p : Particle) : World :=
  { w with particles := w.particles.map (fun pr => if pr.1 = pid then (pid, p) else pr) }

/-- `world.remove_particle`: delete the particle bound to `pid` (a missing
id is a `KeyError` in the external store). -/
def World.remove_particle (w : World) (pid : ℕ) : Except Err World :=
  if (lookupL w.particles pid).isSome then
    .ok { w with particles := removeL w.particles pid }
  else .error .keyError

/-- The pid list of the world, used to state conservation facts. -/
def pidsOf (w : World) : List ℕ := w.particles.map Prod.fst

/-- A Single domain: one particle, one shell, its timing state and its
scheduler entry.  Fields mirror `single.py` (not under `src/`; modelled
from the spec's data model, section 3) plus the uses in `egfrd.py`. -/
structure Single where
  domain_id : ℕ
  pid : ℕ
  particle : Particle
  shell_id : ℕ
  shell : Shell
  last_time : ℚ
  dt : ℚ
  event_type : EventType
  event_id : ℕ
  rts : List Rule
deriving DecidableEq

/-- Modelled from the spec: `single.initialize(t)` (in `single.py`, not
under `src/`) resets the Single - dt zero, a (vacuous) escape event type,
last-event time `t`.  The reset state must satisfy the `is_reset`
assertions of `egfrd.py` (dimensionless, dt = 0). -/
def init_single (sg : Single) (t : ℚ) : Single :=
  { sg with dt := 0, event_type := .SINGLE_ESCAPE, last_time := t }

/-- Modelled from the spec: `single.is_reset()` - the Single is
dimensionless (shell radius equals particle radius) with `dt = 0` and the
reset event type. -/
def is_reset (sg : Single) : Prop :=
  sg.dt = 0 ∧ sg.event_type = .SINGLE_ESCAPE ∧ sg.shell.radius = sg.particle.radius

instance (sg : Single) : Decidable (is_reset sg) := by
  unfold is_reset; infer_instance

/-- A Pair domain, mirroring `pair.py` (not under `src/`; fields are
those `egfrd.py` reads and writes, per the spec's data model).
`reacting_is_1` encodes `pair.reactingsingle == pair.single1`. -/
structure PairD where
  domain_id : ℕ
  com : ℚ
  single1 : Single
  single2 : Single
  shell_id : ℕ
  shell : Shell
  r0 : ℚ
  rt : Rule
  ktot : ℚ
  last_time : ℚ
  dt : ℚ
  event_type : EventType
  reacting_is_1 : Bool
  event_id : ℕ
deriving DecidableEq

/-- A Multi domain, mirroring `multi.py` (not under `src/`; modelled from
the spec: an unordered particle set, one small shell per particle, one
event). -/
structure MultiD where
  domain_id : ℕ
  particles : List (ℕ × Particle)
  shells : List (ℕ × Shell)
  last_event : Option EventType
  dt : ℚ
  event_id : ℕ
deriving DecidableEq

/-- The tagged union of domain variants (spec section 3). -/
inductive Domain where
  | single (sg : Single)
  | pair (p : PairD)
  | multi (m : MultiD)
deriving DecidableEq

def Domain.did : Domain → ℕ
  | .single sg => sg.domain_id
  | .pair p => p.domain_id
  | .multi m => m.domain_id

def Domain.shell_list : Domain → List (ℕ × Shell)
  | .single sg => [(sg.shell_id, sg.shell)]
  | .pair p => [(p.shell_id, p.shell)]
  | .multi m => m.shells

def Domain.event_id : Domain → ℕ
  | .single sg => sg.event_id
  | .pair p => p.event_id
  | .multi m => m.event_id

/-- `domain.multiplicity`: number of particles governed by the domain. -/
def Domain.multiplicity : Domain → ℕ
  | .single _ => 1
  | .pair _ => 2
  | .multi m => m.particles.length

/-- The simulator state: the fields of `EGFRDSimulator` (and of its base
`ParticleSimulatorBase` that the shown code reads), with the single
(spherical) shell container, the scheduler as an insertion-ordered keyed
list, and the id generators as counters.  `user_max_shell_size = none`
stands for the `numpy.inf` default.  `network_rules1` / `network_rules2`
are the external reaction-rule collaborator. -/
structure Sim where
  world : World
  t : ℚ
  dt : ℚ
  domains : List (ℕ × Domain)
  shells : List (ℕ × Shell)
  scheduler : List (ℕ × DEvent)
  next_event_id : ℕ
  next_domain_id : ℕ
  next_shell_id : ℕ
  next_pid : ℕ
  rejected_moves : ℕ
  reaction_events : ℕ
  single_steps_escape : ℕ
  single_steps_reaction : ℕ
  interaction_steps_escape : ℕ
  interaction_steps_interaction : ℕ
  pair_steps_total : ℕ
  multi_steps_total : ℕ
  zero_steps : ℕ
  step_counter : ℕ
  sim_last_time : ℚ
  last_reaction : Option (Rule × List ℕ)
  last_event_did : Option ℕ
  user_max_shell_size : Option ℚ
  dissociation_retry_moves : ℕ
  network_rules1 : ℕ → List Rule
  network_rules2 : ℕ → ℕ → List Rule

/-- `get_matrix_cell_size`: `containers[0].cell_size`, the world size
divided by the matrix size. -/
def Sim.get_matrix_cell_size (s : Sim) : ℚ := s.world.world_size / s.world.matrix_size

/-- `get_max_shell_size`: `min(cell_size * .5 / SAFETY, user_max_shell_size)`
(with `user_max_shell_size = numpy.inf` the first argument wins). -/
def Sim.get_max_shell_size (s : Sim) : ℚ :=
  match s.user_max_shell_size with
  | none => s.get_matrix_cell_size * (1/2) / SAFETY
  | some u => min (s.get_matrix_cell_size * (1/2) / SAFETY) u

/-- `get_next_time`: the time of the scheduler top, or `t` when empty. -/
def sched_top (l : List (ℕ × DEvent)) : Option (ℕ × DEvent) :=
  l.foldl (fun acc e =>
    match acc with
    | none => some e
    | some b => if e.2.time < b.2.time ∨ (e.2.time = b.2.time ∧ e.1 < b.1) then some e else some b)
    none

def Sim.get_next_time (s : Sim) : ℚ :=
  match sched_top s.scheduler with
  | none => s.t
  | some (_, ev) => ev.time

/-- The determinized random/analytic-draw collaborator: each field stands
for one of the stochastic primitives of `single.py` / `pair.py` /
`multi.py` / `myrandom` (all outside `src/`; modelled from the spec's
black-box contracts, sections 4.3, 4.4 and 6). -/
structure Oracle where
  drawNewPosition : Single → ℚ → EventType → ℚ
  nextEvent : Single → ℚ × EventType
  drawRule : Single → Rule
  drawIv : Single → EventType
  vectors : ℕ → ℚ
  choosePairRule : List Rule → Rule
  pairNextEvent : PairD → ℚ → ℚ × EventType × Bool
  pairDrawIv : PairD → ℚ → EventType
  pairDrawPositions : PairD → ℚ → ℚ → ℚ → EventType → ℚ × ℚ
  pairDrawCom : PairD → ℚ → EventType → ℚ
  multiInitDt : MultiD → ℚ
  multiStep : MultiD → List (ℕ × Particle) × Option EventType

/-! Low-level state operations of `EGFRDSimulator`. -/

/-- `move_shell(shell_id_shell_pair)`: upsert the shell into its
container. -/
def move_shell (s : Sim) (pr : ℕ × Shell) : Sim :=
  { s with shells := upsertL s.shells pr.1 pr.2 }

/-- Mutation write-back emulating Python aliasing: a domain object that
still sits in `self.domains` is mutated in place there; one that was
removed is not re-created. -/
def sync_domain (s : Sim) (d : Domain) : Sim :=
  if (lookupL s.domains d.did).isSome then
    { s with domains := upsertL s.domains d.did d }
  else s

/-- `world_new_particle`: `self.world.new_particle(species_id, pos)` with
a fresh particle id drawn from the simulator-level counter. -/
def world_new_particle (s : Sim) (sp : Species) (pos : ℚ) : Sim × (ℕ × Particle) :=
  let pid := s.next_pid
  let p : Particle := { position := pos, radius := sp.radius, D := sp.D, sid := sp.id }
  ({ s with world := { s.world with particles := s.world.particles ++ [(pid, p)] },
            next_pid := pid + 1 }, (pid, p))

/-- `move_single_shell(single, position, radius)`: build a new shell
(reusing shell id and domain id), write it into the container and into
the single. -/
def move_single_shell (s : Sim) (sg : Single) (position radius : ℚ) : Sim × Single :=
  let shell : Shell := { did := sg.domain_id, position := position, radius := radius }
  let sg := { sg with shell := shell }
  let s := move_shell s (sg.shell_id, shell)
  (sync_domain s (.single sg), sg)

/-- `move_single_particle(single, position)`: replace the particle record
and push it to the world store. -/
def move_single_particle (s : Sim) (sg : Single) (position : ℚ) : Sim × Single :=
  let p := { sg.particle with position := position }
  let sg := { sg with particle := p }
  let s := { s with world := s.world.update_particle sg.pid p }
  (sync_domain s (.single sg), sg)

/-- `move_single(single, position, radius)`. -/
def move_single (s : Sim) (sg : Single) (position radius : ℚ) : Sim × Single :=
  let (s, sg) := move_single_shell s sg position radius
  move_single_particle s sg position

/-- Helper of `remove_domain`: `del container[shell_id]` for every shell
of the domain (a missing key is a `KeyError`). -/
def deleteShells (s : Sim) : List (ℕ × Shell) → Sim × Except Err Unit
  | [] => (s, .ok ())
  | (sid, _) :: rest =>
    match lookupL s.shells sid with
    | none => (s, .error .keyError)
    | some _ => deleteShells { s with shells := removeL s.shells sid } rest

/-- `remove_domain(obj)`: delete the domain-table entry and every shell
of the domain from the containers. -/
def remove_domain (s : Sim) (d : Domain) : Sim × Except Err Unit :=
  match lookupL s.domains d.did with
  | none => (s, .error .keyError)
  | some _ => deleteShells { s with domains := removeL s.domains d.did } d.shell_list

/-- Scheduler insertion: fresh event id, appended in insertion order. -/
def sched_add (s : Sim) (ev : DEvent) : Sim × ℕ :=
  let eid := s.next_event_id
  ({ s with scheduler := s.scheduler ++ [(eid, ev)], next_event_id := eid + 1 }, eid)

/-- `add_single_event(single)`: schedule the single at `t + single.dt`
and record the event id on the single. -/
def add_single_event (s : Sim) (sg : Single) : Sim × Single :=
  let (s, eid) := sched_add s { time := s.t + sg.dt, did := sg.domain_id }
  let sg := { sg with event_id := eid }
  (sync_domain s (.single sg), sg)

/-- `add_pair_event(pair)`. -/
def add_pair_event (s : Sim) (p : PairD) : Sim × PairD :=
  let (s, eid) := sched_add s { time := s.t + p.dt, did := p.domain_id }
  let p := { p with event_id := eid }
  (sync_domain s (.pair p), p)

/-- `add_multi_event(multi)`. -/
def add_multi_event (s : Sim) (m : MultiD) : Sim × MultiD :=
  let (s, eid) := sched_add s { time := s.t + m.dt, did := m.domain_id }
  let m := { m with event_id := eid }
  (sync_domain s (.multi m), m)

/-- `remove_event(event)`: `del self.scheduler[event_id]`. -/
def remove_event (s : Sim) (eid : ℕ) : Sim × Except Err Unit :=
  match lookupL s.scheduler eid with
  | none => (s, .error .keyError)
  | some _ => ({ s with scheduler := removeL s.scheduler eid }, .ok ())

/-- `update_single_event` / `update_multi_event`:
`self.scheduler.update((event_id, DomainEvent(t, domain)))`. -/
def update_event (s : Sim) (eid : ℕ) (ev : DEvent) : Sim × Except Err Unit :=
  match lookupL s.scheduler eid with
  | none => (s, .error .keyError)
  | some _ => ({ s with scheduler := upsertL s.scheduler eid ev }, .ok ())

/-- `create_single(pid_particle_pair)`: fresh domain and shell ids, a
reset single shell-wrapped at the particle (the dimensionless shell of
`SphericalSingle.__init__`, modelled from the spec), `initialize(self.t)`,
container write, domain-table write. -/
def create_single (s : Sim) (pid : ℕ) (p : Particle) : Sim × Except Err Single :=
  let rts := s.network_rules1 p.sid
  let domain_id := s.next_domain_id
  let shell_id := s.next_shell_id
  let s := { s with next_domain_id := domain_id + 1, next_shell_id := shell_id + 1 }
  match s.world.get_species p.sid with
  | none => (s, .error .keyError)
  | some _ =>
    let shell : Shell := { did := domain_id, position := p.position, radius := p.radius }
    let sg : Single :=
      { domain_id := domain_id, pid := pid, particle := p, shell_id := shell_id,
        shell := shell, last_time := s.t, dt := 0, event_type := .SINGLE_ESCAPE,
        event_id := 0, rts := rts }
    let s := move_shell s (shell_id, sg.shell)
    let s := { s with domains := upsertL s.domains domain_id (.single sg) }
    (s, .ok sg)

/-- `create_pair(single1, single2, com, r0, shell_size)`: the `assert
dt == 0` entry checks, rule selection by weighted draw (determinized into
`o.choosePairRule`, with `ktot` the total rate `k_array[-1]`), fresh ids,
pair construction, `pair.initialize(self.t)` (a reset, modelled from the
spec), container and table writes. -/
def create_pair (s : Sim) (sg1 sg2 : Single) (com r0 shell_size : ℚ) (o : Oracle) :
    Sim × Except Err PairD :=
  if sg1.dt ≠ 0 then (s, .error .assertionError)
  else if sg2.dt ≠ 0 then (s, .error .assertionError)
  else
    let rts := s.network_rules2 sg1.particle.sid sg2.particle.sid
    let rt := o.choosePairRule rts
    let ktot := (rts.map Rule.k).sum
    let domain_id := s.next_domain_id
    let shell_id := s.next_shell_id
    let s := { s with next_domain_id := domain_id + 1, next_shell_id := shell_id + 1 }
    let shell : Shell := { did := domain_id, position := com, radius := shell_size }
    let p : PairD :=
      { domain_id := domain_id, com := com, single1 := sg1, single2 := sg2,
        shell_id := shell_id, shell := shell, r0 := r0, rt := rt, ktot := ktot,
        last_time := s.t, dt := 0, event_type := .COM_ESCAPE, reacting_is_1 := true,
        event_id := 0 }
    let s := move_shell s (shell_id, p.shell)
    let s := { s with domains := upsertL s.domains domain_id (.pair p) }
    (s, .ok p)

/-- `create_multi()`: fresh domain id, empty multi, table write (the
`dt_factor` bookkeeping lives in `multi.py`, outside `src/`). -/
def create_multi (s : Sim) : Sim × MultiD :=
  let domain_id := s.next_domain_id
  let s := { s with next_domain_id := domain_id + 1 }
  let m : MultiD :=
    { domain_id := domain_id, particles := [], shells := [], last_event := none,
      dt := 0, event_id := 0 }
  ({ s with domains := upsertL s.domains domain_id (.multi m) }, m)

/-! Neighbor queries over the shell container.  Distances of
`numpy.inf` are modelled by `none`. -/

/-- Strict comparison with `none` as plus infinity. -/
def ltQI : Option ℚ → Option ℚ → Bool
  | none, _ => false
  | some _, none => true
  | some x, some y => decide (x < y)

/-- `a <= b` for a possibly-infinite `a` and a finite `b`. -/
def leQIr : Option ℚ → ℚ → Bool
  | none, _ => false
  | some x, b => decide (x ≤ b)

/-- `a > b` for a possibly-infinite `a` and a finite `b`. -/
def gtQIr : Option ℚ → ℚ → Bool
  | none, _ => true
  | some x, b => decide (b < x)

/-- `a < b` for a possibly-infinite `a` and a finite `b`. -/
def ltQIr : Option ℚ → ℚ → Bool
  | none, _ => false
  | some x, b => decide (x < b)

/-- `world.distance(shell.shape, pos)`: distance from a point to the
surface of a (spherical) shell, negative inside. -/
def shell_surface_distance (w : World) (pos : ℚ) (sh : Shell) : ℚ :=
  w.distance pos sh.position - sh.radius

/-- Stable insertion into a distance-ascending list. -/
def insertByDist (x : (ℕ × Shell) × ℚ) : List ((ℕ × Shell) × ℚ) → List ((ℕ × Shell) × ℚ)
  | [] => [x]
  | y :: ys => if x.2 < y.2 then x :: y :: ys else y :: insertByDist x ys

/-- `container.get_neighbors(pos)`: every shell paired with its surface
distance from `pos`, ascending. -/
def get_neighbors_sorted (s : Sim) (pos : ℚ) : List ((ℕ × Shell) × ℚ) :=
  (s.shells.map (fun pr => (pr, shell_surface_distance s.world pos pr.2))).foldr
    insertByDist []

/-- First-occurrence deduplication (`utils.uniq`). -/
def uniqNat (l : List ℕ) : List ℕ :=
  l.foldl (fun acc x => if acc.contains x then acc else acc ++ [x]) []

/-- `uniq` over bursted domain lists, by domain id. -/
def uniqDomains (l : List Domain) : List Domain :=
  (l.foldl (fun (acc : List ℕ × List Domain) d =>
    if acc.1.contains d.did then acc else (acc.1 ++ [d.did], acc.2 ++ [d])) ([], [])).2

/-- Resolve a list of domain ids in the domain table. -/
def domains_of_dids (s : Sim) : List ℕ → Except Err (List Domain)
  | [] => .ok []
  | did :: rest =>
    match lookupL s.domains did with
    | none => .error .keyError
    | some d =>
      match domains_of_dids s rest with
      | .error e => .error e
      | .ok l => .ok (d :: l)

/-- `get_neighbors_within_radius_no_sort(pos, radius, ignore)`: the
domains owning a shell whose surface distance from `pos` is below
`radius`, each domain once, ignored ids dropped. -/
def get_neighbors_within_radius_no_sort (s : Sim) (pos radius : ℚ) (ignore : List ℕ) :
    Except Err (List Domain) :=
  let hits := (s.shells.filter
    (fun pr => decide (shell_surface_distance s.world pos pr.2 < radius))).map (·.2.did)
  domains_of_dids s ((uniqNat hits).filter (fun did => !(ignore.contains did)))

/-- Scan of `get_intruders`: walk the ascending neighbor list, collecting
one domain per id within `radius`; the first shell beyond `radius` gives
the closest non-intruder and stops the scan. -/
def intruders_scan (s : Sim) (radius : ℚ) :
    List ℕ → List Domain → List ((ℕ × Shell) × ℚ) →
    Except Err (List Domain × Option Domain × Option ℚ)
  | _, intr, [] => .ok (intr, none, none)
  | seen, intr, n :: rest =>
    let did := n.1.2.did
    let dist := n.2
    if dist > radius then
      match lookupL s.domains did with
      | none => .error .keyError
      | some d => .ok (intr, some d, some dist)
    else if seen.contains did then intruders_scan s radius seen intr rest
    else
      match lookupL s.domains did with
      | none => .error .keyError
      | some d => intruders_scan s radius (seen ++ [did]) (intr ++ [d]) rest

/-- `get_intruders(position, radius, ignore)`. -/
def get_intruders (s : Sim) (position radius : ℚ) (ignore : List ℕ) :
    Except Err (List Domain × Option Domain × Option ℚ) :=
  intruders_scan s radius ignore [] (get_neighbors_sorted s position)

/-- `get_closest_obj(pos, ignore, ignores)`: the closest shell whose
domain is not ignored; the model has no surfaces, so
`get_closest_surface` always answers `(None, inf)` and the surface branch
never wins. -/
def get_closest_obj (s : Sim) (pos : ℚ) (ignore : List ℕ) :
    Except Err (Option Domain × Option ℚ) :=
  match (get_neighbors_sorted s pos).find? (fun n => !(ignore.contains n.1.2.did)) with
  | none => .ok (none, none)
  | some n =>
    match lookupL s.domains n.1.2.did with
    | none => .error .keyError
    | some d => .ok (some d, some n.2)

/-- `obj_distance(pos, obj)`: minimum over the domain's shells of the
surface distance from `pos`. -/
def obj_distance (s : Sim) (pos : ℚ) (d : Domain) : ℚ :=
  match (d.shell_list).map (fun pr => shell_surface_distance s.world pos pr.2) with
  | [] => 0
  | x :: xs => xs.foldl min x

/-- `obj_distance_array(pos, objs)`. -/
def obj_distance_array (s : Sim) (pos : ℚ) (objs : List Domain) : List ℚ :=
  objs.map (obj_distance s pos)

/-! Propagation and bursting. -/

/-- `propagate_single(single)`: draw the new position (determinized),
wrap it, debug-check overlap, then either only move the particle (a
`SINGLE_REACTION` that is about to fire) or reset the single and move
particle and shell (dimensionless) to the new position. -/
def propagate_single (s : Sim) (sg : Single) (o : Oracle) : Sim × Except Err Single :=
  let newpos := s.world.apply_boundary (o.drawNewPosition sg sg.dt sg.event_type)
  if s.world.check_overlap newpos sg.particle.radius [sg.pid] then
    (s, .error .runtimeError)
  else if sg.event_type = .SINGLE_REACTION ∧ sg.event_type ≠ .BURST then
    let m := move_single_particle s sg newpos
    (m.1, .ok m.2)
  else
    let sg2 := init_single sg s.t
    let s2 := sync_domain s (.single sg2)
    let m := move_single s2 sg2 newpos sg2.particle.radius
    (m.1, .ok m.2)

/-- `burst_single(single)`: entry assertions, dt/event-type override to a
burst, propagation, the displacement assertion, event re-keying to the
current time, and the reset-radius assertion. -/
def burst_single (s : Sim) (sg : Single) (o : Oracle) : Sim × Except Err Single :=
  if ¬ (sg.last_time ≤ s.t) then (s, .error .assertionError)
  else if ¬ (s.t ≤ sg.last_time + sg.dt) then (s, .error .assertionError)
  else
    let oldpos := sg.shell.position
    let old_shell_size := sg.shell.radius
    let particle_radius := sg.particle.radius
    let sg := { sg with dt := s.t - sg.last_time, event_type := .BURST }
    let s := sync_domain s (.single sg)
    match propagate_single s sg o with
    | (s, .error e) => (s, .error e)
    | (s, .ok newsingle) =>
      let newpos := newsingle.particle.position
      if ¬ (s.world.distance newpos oldpos ≤ old_shell_size - particle_radius) then
        (s, .error .assertionError)
      else
        match update_event s newsingle.event_id { time := s.t, did := newsingle.domain_id } with
        | (s, .error e) => (s, .error e)
        | (s, .ok _) =>
          if newsingle.shell.radius = particle_radius then (s, .ok newsingle)
          else (s, .error .assertionError)

/-- `check_pair_pos(pair, pos1, pos2, com, radius)`: the two debug checks
on freshly drawn pair positions. -/
def check_pair_pos (s : Sim) (p : PairD) (pos1 pos2 com radius : ℚ) : Except Err Unit :=
  let particle1 := p.single1.particle
  let particle2 := p.single2.particle
  let new_distance := s.world.distance pos1 pos2
  let particle_radius12 := particle1.radius + particle2.radius
  if new_distance ≤ particle_radius12 then .error .runtimeError
  else
    let d1 := s.world.distance com pos1 + particle1.radius
    let d2 := s.world.distance com pos2 + particle2.radius
    if d1 > radius ∨ d2 > radius then .error .runtimeError
    else .ok ()

/-- Per-shell part of `check_obj`: size bounds and the no-overlap check
against the closest foreign shell.  All shells are spherical here, so
`shell_size` is the radius. -/
def check_obj_shells (s : Sim) (did : ℕ) : List (ℕ × Shell) → Except Err Unit
  | [] => .ok ()
  | (_, shell) :: rest =>
    match get_closest_obj s shell.position [did] with
    | .error e => .error e
    | .ok (_, distance) =>
      let shell_size := shell.radius
      if (match s.user_max_shell_size with
          | none => true
          | some u => decide (shell_size ≤ u)) = false then .error .assertionError
      else if ¬ (shell_size ≤ s.get_max_shell_size) then .error .assertionError
      else if ltQIr distance shell_size then .error .assertionError
      else check_obj_shells s did rest

/-- `check_obj(obj)`: the domain's own `check()` lives outside `src/` and
is modelled as passing; then every shell is checked for the three
assertions (user ceiling, global maximum, no foreign overlap:
`distance - shell_size >= 0`). -/
def check_obj (s : Sim) (d : Domain) : Except Err Unit :=
  check_obj_shells s d.did d.shell_list

/-- Tail of `propagate_pair` once the new positions are fixed: reset both
component singles, delete the pair (with the not-in-table assertions),
re-register the singles and move them (dimensionless) to their new
positions, with the container-consistency and `check_obj` assertions. -/
def propagate_pair_finish (s : Sim) (p : PairD) (np1 np2 : ℚ) :
    Sim × Except Err (Single × Single) :=
  let single1 := init_single p.single1 s.t
  let single2 := init_single p.single2 s.t
  match remove_domain s (.pair p) with
  | (s, .error e) => (s, .error e)
  | (s, .ok _) =>
    if (lookupL s.domains single1.domain_id).isSome then (s, .error .assertionError)
    else if (lookupL s.domains single2.domain_id).isSome then (s, .error .assertionError)
    else
      let s := { s with domains := upsertL s.domains single1.domain_id (.single single1) }
      let s := { s with domains := upsertL s.domains single2.domain_id (.single single2) }
      let m1 := move_single s single1 np1 p.single1.particle.radius
      let m2 := move_single m1.1 single2 np2 p.single2.particle.radius
      if ¬ ((m1.2).shell.radius = p.single1.particle.radius) then (m2.1, .error .assertionError)
      else if ¬ ((m2.2).shell.radius = p.single2.particle.radius) then
        (m2.1, .error .assertionError)
      else
        match check_obj m2.1 (.single (m1.2)) with
        | .error e => (m2.1, .error e)
        | .ok _ =>
          match check_obj m2.1 (.single (m2.2)) with
          | .error e => (m2.1, .error e)
          | .ok _ => (m2.1, .ok (m1.2, m2.2))

/-- `propagate_pair(pair, dt, event_type)`: draw new positions when time
elapsed (with the debug assertions of the source), reset both component
singles, delete the pair, re-register the singles and move them
(dimensionless) to their new positions. -/
def propagate_pair (s : Sim) (p : PairD) (dt : ℚ) (event_type : EventType) (o : Oracle) :
    Sim × Except Err (Single × Single) :=
  let single1 := p.single1
  let single2 := p.single2
  let particle1 := single1.particle
  let particle2 := single2.particle
  let pos1 := particle1.position
  let pos2 := particle2.position
  let drawn : Except Err (ℚ × ℚ) :=
    if dt > 0 then
      let pos2t := s.world.cyclic_transpose pos2 pos1
      let old_inter_particle := pos2t - pos1
      let r0 := s.world.distance pos1 pos2
      if ¬ (r0 = |old_inter_particle|) then .error .assertionError
      else
        let np := o.pairDrawPositions p dt r0 old_inter_particle event_type
        let np1 := s.world.apply_boundary np.1
        let np2 := s.world.apply_boundary np.2
        if s.world.check_overlap np1 particle1.radius [single1.pid, single2.pid] then
          .error .assertionError
        else if s.world.check_overlap np2 particle2.radius [single1.pid, single2.pid] then
          .error .assertionError
        else
          match check_pair_pos s p np1 np2 p.com p.shell.radius with
          | .error e => .error e
          | .ok _ => .ok (np1, np2)
    else .ok (pos1, pos2)
  match drawn with
  | .error e => (s, .error e)
  | .ok (np1, np2) => propagate_pair_finish s p np1 np2

/-- `burst_pair(pair)`: entry assertions, then a burst-typed pair
propagation over the elapsed time. -/
def burst_pair (s : Sim) (p : PairD) (o : Oracle) : Sim × Except Err (Single × Single) :=
  if ¬ (p.last_time ≤ s.t) then (s, .error .assertionError)
  else if ¬ (s.t ≤ p.last_time + p.dt) then (s, .error .assertionError)
  else propagate_pair s p (s.t - p.last_time) .BURST o

/-- Helper of `break_up_multi`: one fresh scheduled single per member
particle. -/
def singles_of_particles (s : Sim) : List (ℕ × Particle) → Sim × Except Err (List Single)
  | [] => (s, .ok [])
  | (pid, p) :: rest =>
    match create_single s pid p with
    | (s, .error e) => (s, .error e)
    | (s, .ok sg) =>
      let a := add_single_event s sg
      match singles_of_particles a.1 rest with
      | (s, .error e) => (s, .error e)
      | (s, .ok l) => (s, .ok (a.2 :: l))

/-- `break_up_multi(multi)`: delete the multi, then one single per member
particle, each scheduled immediately. -/
def break_up_multi (s : Sim) (m : MultiD) : Sim × Except Err (List Single) :=
  match remove_domain s (.multi m) with
  | (s, .error e) => (s, .error e)
  | (s, .ok _) => singles_of_particles s m.particles

/-- `burst_multi(multi)`. -/
def burst_multi (s : Sim) (m : MultiD) : Sim × Except Err (List Single) :=
  break_up_multi s m

/-- `burst_obj(obj)`: dispatch on the domain variant; pairs get their two
successor singles scheduled and the pair event removed, multis are broken
up and their event removed. -/
def burst_obj (s : Sim) (d : Domain) (o : Oracle) : Sim × Except Err (List Domain) :=
  match d with
  | .single sg =>
    match burst_single s sg o with
    | (s, .error e) => (s, .error e)
    | (s, .ok sg) => (s, .ok [.single sg])
  | .pair p =>
    match burst_pair s p o with
    | (s, .error e) => (s, .error e)
    | (s, .ok (s1, s2)) =>
      let a1 := add_single_event s s1
      let a2 := add_single_event a1.1 s2
      match remove_event a2.1 p.event_id with
      | (s, .error e) => (s, .error e)
      | (s, .ok _) => (s, .ok [.single a1.2, .single a2.2])
  | .multi m =>
    match burst_multi s m with
    | (s, .error e) => (s, .error e)
    | (s, .ok singles) =>
      match remove_event s m.event_id with
      | (s, .error e) => (s, .error e)
      | (s, .ok _) => (s, .ok (singles.map Domain.single))

/-- `burst_objs(objs)`. -/
def burst_objs (s : Sim) (objs : List Domain) (o : Oracle) : Sim × Except Err (List Domain) :=
  match objs with
  | [] => (s, .ok [])
  | d :: rest =>
    match burst_obj s d o with
    | (s, .error e) => (s, .error e)
    | (s, .ok b) =>
      match burst_objs s rest o with
      | (s, .error e) => (s, .error e)
      | (s, .ok bs) => (s, .ok (b ++ bs))

/-- `clear_volume(pos, radius, ignore)`: burst every domain owning a
shell within `radius`. -/
def clear_volume (s : Sim) (pos radius : ℚ) (ignore : List ℕ) (o : Oracle) :
    Sim × Except Err (List Domain) :=
  match get_neighbors_within_radius_no_sort s pos radius ignore with
  | .error e => (s, .error e)
  | .ok neighbors => burst_objs s neighbors o

/-- `burst_non_multis(neighbors)`: burst everything but multis, which
pass through unchanged. -/
def burst_non_multis (s : Sim) (neighbors : List Domain) (o : Oracle) :
    Sim × Except Err (List Domain) :=
  match neighbors with
  | [] => (s, .ok [])
  | d :: rest =>
    match d with
    | .multi _ =>
      match burst_non_multis s rest o with
      | (s, .error e) => (s, .error e)
      | (s, .ok bs) => (s, .ok (d :: bs))
    | _ =>
      match burst_obj s d o with
      | (s, .error e) => (s, .error e)
      | (s, .ok b) =>
        match burst_non_multis s rest o with
        | (s, .error e) => (s, .error e)
        | (s, .ok bs) => (s, .ok (b ++ bs))

/-! Reaction firing for Singles. -/

/-- The inner `while 1` separation loop of the two-product dissociation:
scale the drawn vector by `1 + 1e-7` until the two candidate positions
are at least `particle_radius12` apart.  The Python loop is unbounded;
`none` (fuel exhausted) models its nontermination. -/
def separate_loop (w : World) (oldpos D1 D2 D12 r12 : ℚ) : ℚ → ℕ → Option (ℚ × ℚ)
  | _, 0 => none
  | vector, fuel + 1 =>
    let newpos1 := w.apply_boundary (oldpos + vector * (D1 / D12))
    let newpos2 := w.apply_boundary (oldpos - vector * (D2 / D12))
    if r12 ≤ w.distance newpos1 newpos2 then some (newpos1, newpos2)
    else separate_loop w oldpos D1 D2 D12 r12 (vector * (1 + 1/10000000)) fuel

/-- The for/else retry loop of the two-product dissociation: up to
`remaining` attempts, each drawing one vector (`o.vectors i`, the
determinized `_random_vector` draw), separating the candidate positions
and accepting them when neither overlaps an existing particle; the
`else` clause of the exhausted loop raises `NoSpace`.  The first
component counts the attempts made. -/
def dissociation_loop (w : World) (pid : ℕ) (o : Oracle) (oldpos D1 D2 D12 r1 r2 r12 : ℚ) :
    ℕ → ℕ → ℕ × Except Err (ℚ × ℚ)
  | _, 0 => (0, .error .noSpace)
  | i, remaining + 1 =>
    let vector := o.vectors i
    match separate_loop w oldpos D1 D2 D12 r12 vector SEPARATION_FUEL with
    | none => (1, .error .diverge)
    | some (newpos1, newpos2) =>
      if (!(w.check_overlap newpos1 r1 [pid])) && (!(w.check_overlap newpos2 r2 [pid])) then
        (1, .ok (newpos1, newpos2))
      else
        let r := dissociation_loop w pid o oldpos D1 D2 D12 r1 r2 r12 (i + 1) remaining
        (r.1 + 1, r.2)

/-- Zero-product branch of `fire_single_reaction`: remove the reactant,
record the reaction. -/
def fire_zero_product (s : Sim) (sg : Single) (rt : Rule) : Sim × Except Err Unit :=
  match s.world.remove_particle sg.pid with
  | .error e => (s, .error e)
  | .ok w => ({ s with world := w, last_reaction := some (rt, []) }, .ok ())

/-- Placement tail of the one-product branch of `fire_single_reaction`:
raise `NoSpace` on overlap, else swap the particle for the product and
schedule the product single. -/
def fire_one_product_place (s : Sim) (sg : Single) (rt : Rule) (product_species : Species) :
    Sim × Except Err Unit :=
  let oldpos := sg.particle.position
  if s.world.check_overlap oldpos product_species.radius [sg.pid] then
    (s, .error .noSpace)
  else
    match s.world.remove_particle sg.pid with
    | .error e => (s, .error e)
    | .ok w =>
      let n1 := world_new_particle { s with world := w } product_species oldpos
      match create_single n1.1 (n1.2).1 (n1.2).2 with
      | (s, .error e) => (s, .error e)
      | (s, .ok newsingle) =>
        ({ (add_single_event s newsingle).1 with
            last_reaction := some (rt, [(n1.2).1]) }, .ok ())

/-- One-product branch of `fire_single_reaction`: clear space when the
product is bigger, then place. -/
def fire_one_product (s : Sim) (sg : Single) (rt : Rule) (sid : ℕ) (o : Oracle) :
    Sim × Except Err Unit :=
  let reactant_species_radius := sg.particle.radius
  let oldpos := sg.particle.position
  match s.world.get_species sid with
  | none => (s, .error .keyError)
  | some product_species =>
    if reactant_species_radius < product_species.radius then
      match clear_volume s oldpos product_species.radius [] o with
      | (s, .error e) => (s, .error e)
      | (s, .ok _) => fire_one_product_place s sg rt product_species
    else fire_one_product_place s sg rt product_species

/-- Placement tail of the two-product branch of `fire_single_reaction`:
replace the reactant by the two products at the accepted positions and
schedule both product singles. -/
def fire_two_product_place (s : Sim) (sg : Single) (rt : Rule)
    (product_species1 product_species2 : Species) (newpos1 newpos2 : ℚ) :
    Sim × Except Err Unit :=
  match s.world.remove_particle sg.pid with
  | .error e => (s, .error e)
  | .ok w =>
    let n1 := world_new_particle { s with world := w } product_species1 newpos1
    let n2 := world_new_particle n1.1 product_species2 newpos2
    match create_single n2.1 ((n1.2).1) ((n1.2).2) with
    | (s, .error e) => (s, .error e)
    | (s, .ok newsingle1) =>
      match create_single s ((n2.2).1) ((n2.2).2) with
      | (s, .error e) => (s, .error e)
      | (s, .ok newsingle2) =>
        ({ (add_single_event (add_single_event s newsingle1).1 newsingle2).1 with
            last_reaction := some (rt, [(n1.2).1, (n2.2).1]) }, .ok ())

/-- Two-product branch of `fire_single_reaction`: clear space, run the
retry loop, and on success replace the reactant with the two scheduled
products.  `D1 + D2 = 0` is the Python `ZeroDivisionError` of the FIXME
case. -/
def fire_two_product (s : Sim) (sg : Single) (rt : Rule) (sid1 sid2 : ℕ) (o : Oracle) :
    Sim × Except Err Unit :=
  let oldpos := sg.particle.position
  match s.world.get_species sid1, s.world.get_species sid2 with
  | none, _ => (s, .error .keyError)
  | _, none => (s, .error .keyError)
  | some product_species1, some product_species2 =>
    let D1 := product_species1.D
    let D2 := product_species2.D
    let D12 := D1 + D2
    let particle_radius1 := product_species1.radius
    let particle_radius2 := product_species2.radius
    let particle_radius12 := particle_radius1 + particle_radius2
    if D12 = 0 then (s, .error .runtimeError)
    else
      let rad := max (particle_radius12 * (D1 / D12) + particle_radius1)
                     (particle_radius12 * (D2 / D12) + particle_radius2)
      match clear_volume s oldpos rad [] o with
      | (s, .error e) => (s, .error e)
      | (s, .ok _) =>
        match (dissociation_loop s.world sg.pid o oldpos D1 D2 D12 particle_radius1
                particle_radius2 particle_radius12 0 s.dissociation_retry_moves).2 with
        | .error e => (s, .error e)
        | .ok (newpos1, newpos2) =>
          fire_two_product_place s sg rt product_species1 product_species2 newpos1 newpos2

/-- `fire_single_reaction(single)`: draw one weighted reaction rule
(determinized into `o.drawRule`), dispatch on its product count (three or
more products are a `RuntimeError`), and count the reaction event. -/
def fire_single_reaction (s : Sim) (sg : Single) (o : Oracle) : Sim × Except Err Unit :=
  let rt := o.drawRule sg
  let fired : Sim × Except Err Unit :=
    match rt.products with
    | [] => fire_zero_product s sg rt
    | [p1] => fire_one_product s sg rt p1 o
    | [p1, p2] => fire_two_product s sg rt p1 p2 o
    | _ => (s, .error .runtimeError)
  match fired with
  | (s, .error e) => (s, .error e)
  | (s, .ok _) => ({ s with reaction_events := s.reaction_events + 1 }, .ok ())

/-- `reject_single_reaction(single)`: restore the domain-table entry and
the shell, count the rejected move, re-initialize the single and
reschedule it. -/
def reject_single_reaction (s : Sim) (sg : Single) : Sim :=
  let s := { s with domains := upsertL s.domains sg.domain_id (.single sg) }
  let s := move_shell s (sg.shell_id, sg.shell)
  let s := { s with rejected_moves := s.rejected_moves + 1 }
  let sg := init_single sg s.t
  let s := sync_domain s (.single sg)
  (add_single_event s sg).1

/-! Shell maintenance and the domain-formation algorithms. -/

/-- `calculate_single_shell_size(single, closest, distance, shell_distance)`. -/
def calculate_single_shell_size (w : World) (sg closest : Single)
    (distance shell_distance : ℚ) : ℚ :=
  let min_radius1 := sg.particle.radius
  let D1 := sg.particle.D
  if D1 = 0 then min_radius1
  else
    let D2 := closest.particle.D
    let min_radius2 := closest.particle.radius
    let min_radius12 := min_radius1 + min_radius2
    let sqrtD1 := w.sqrtQ D1
    let shell_size :=
      min (sqrtD1 / (sqrtD1 + w.sqrtQ D2) * (distance - min_radius12) + min_radius1)
          (shell_distance / SAFETY)
    if shell_size < min_radius1 then min_radius1 else shell_size

/-- `update_single(single, closest, distance_to_shell)`: resize the shell
in place (position unchanged) to the allowed size, then draw the next
event (determinized `determine_next_event`) and stamp `last_time`. -/
def update_single (s : Sim) (sg : Single) (closest : Option Domain) (dist : Option ℚ)
    (o : Oracle) : Sim × Single :=
  let singlepos := sg.shell.position
  let nss : Option ℚ :=
    match closest, dist with
    | some (.single c), some d =>
      some (calculate_single_shell_size s.world sg c
              (s.world.distance singlepos c.shell.position) d)
    | _, some d => some (max (d / SAFETY) sg.particle.radius)
    | _, none => none
  let new_shell_size :=
    match nss with
    | some v => min v s.get_max_shell_size
    | none => s.get_max_shell_size
  let (s, sg) := move_single_shell s sg singlepos new_shell_size
  let ne := o.nextEvent sg
  let sg := { sg with dt := ne.1, event_type := ne.2, last_time := s.t }
  (sync_domain s (.single sg), sg)

/-- The size computations of steps 1-2 of `form_pair`. -/
structure PairSizes where
  r0 : ℚ
  sigma : ℚ
  distance_from_sigma : ℚ
  min_shell_size : ℚ
  shell_size_margin : ℚ
  min_shell_size_with_margin : ℚ
  com : ℚ
deriving DecidableEq

/-- Step 1 of `form_pair`: the minimum shell size containing both
particles' diffusive share of the gap, with the per-particle margin;
the larger of the two candidates (margin included) wins. -/
def form_pair_sizes (s : Sim) (sg1 : Single) (pos1 : ℚ) (sg2 : Single) : PairSizes :=
  let radius1 := sg1.particle.radius
  let radius2 := sg2.particle.radius
  let sigma := radius1 + radius2
  let D1 := sg1.particle.D
  let D2 := sg2.particle.D
  let D12 := D1 + D2
  let pos2 := sg2.shell.position
  let r0 := s.world.distance pos1 pos2
  let distance_from_sigma := r0 - sigma
  let shell_size1 := r0 * D1 / D12 + radius1
  let shell_size2 := r0 * D2 / D12 + radius2
  let shell_size_margin1 := radius1 * 2
  let shell_size_margin2 := radius2 * 2
  let chosen :=
    if shell_size1 + shell_size_margin1 ≥ shell_size2 + shell_size_margin2 then
      (shell_size1, shell_size_margin1)
    else (shell_size2, shell_size_margin2)
  let com := s.world.apply_boundary (s.world.calculate_pair_CoM pos1 pos2 D1 D2)
  { r0 := r0, sigma := sigma, distance_from_sigma := distance_from_sigma,
    min_shell_size := chosen.1, shell_size_margin := chosen.2,
    min_shell_size_with_margin := chosen.1 + chosen.2, com := com }

/-- Step 2 of `form_pair`: the maximum allowed shell size - the smaller
of the global maximum and the gap-scaled cap
`distance_from_sigma * 100 + sigma + shell_size_margin`. -/
def form_pair_max_shell_size (s : Sim) (ps : PairSizes) : ℚ :=
  min s.get_max_shell_size (ps.distance_from_sigma * 100 + ps.sigma + ps.shell_size_margin)

/-- Step 3 of `form_pair`: closest burst single by
center-of-mass-to-position distance minus the `SINGLE_SHELL_FACTOR`
mobility allowance. -/
def closest_burst_single (s : Sim) (com : ℚ) (burst : List Domain) :
    Option Domain × Option ℚ :=
  burst.foldl (fun (acc : Option Domain × Option ℚ) b =>
    match b with
    | .single bs =>
      let d := s.world.distance com bs.shell.position -
               bs.particle.radius * SINGLE_SHELL_FACTOR
      match acc.2 with
      | none => (some b, some d)
      | some cd => if d < cd then (some b, some d) else acc
    | _ => acc) (none, none)

/-- `form_pair(single1, pos1, single2, burst)`: the five formation
criteria of spec section 4.4 as implemented, answering `none` on any
rejection and the created pair domain on acceptance. -/
def form_pair (s : Sim) (sg1 : Single) (pos1 : ℚ) (sg2 : Single) (burst : List Domain)
    (o : Oracle) : Sim × Except Err (Option Domain) :=
  if ¬ is_reset sg1 then (s, .error .assertionError)
  else if ¬ is_reset sg2 then (s, .error .assertionError)
  else if ¬ (pos1 = sg1.shell.position) then (s, .error .assertionError)
  else
    let ps := form_pair_sizes s sg1 pos1 sg2
    if ¬ (ps.distance_from_sigma ≥ 0) then (s, .error .assertionError)
    else
      let max_shell_size := form_pair_max_shell_size s ps
      if ps.min_shell_size_with_margin ≥ max_shell_size then (s, .ok none)
      else
        let cb := closest_burst_single s ps.com burst
        if leQIr cb.2 ps.min_shell_size_with_margin then (s, .ok none)
        else if ¬ (gtQIr cb.2 0) then (s, .error .assertionError)
        else
          match get_closest_obj s ps.com [sg1.domain_id, sg2.domain_id] with
          | .error e => (s, .error e)
          | .ok (c, d) =>
            let closest := if ltQI d cb.2 then c else cb.1
            let closest_shell_distance := if ltQI d cb.2 then d else cb.2
            if ¬ (gtQIr closest_shell_distance 0) then (s, .error .assertionError)
            else
              let D12 := sg1.particle.D + sg2.particle.D
              let step4 : Sim × Except Err (Option ℚ) :=
                match closest, closest_shell_distance with
                | some (.single cs), some csd =>
                  let D_closest := cs.particle.D
                  let D_tot := D_closest + D12
                  let closest_particle_distance := s.world.distance ps.com cs.particle.position
                  let closest_min_radius := cs.particle.radius
                  let closest_min_shell := closest_min_radius * SINGLE_SHELL_FACTOR
                  let shell_size :=
                    (min (min ((D12 / D_tot) *
                                (closest_particle_distance - ps.min_shell_size -
                                 closest_min_radius) + ps.min_shell_size)
                              (closest_particle_distance - closest_min_shell))
                         csd) / SAFETY
                  if ¬ (shell_size < csd) then (s, .error .assertionError)
                  else (s, .ok (some shell_size))
                | _, some csd => (s, .ok (some (csd / SAFETY)))
                | _, none => (s, .ok none)
              match step4 with
              | (s, .error e) => (s, .error e)
              | (s, .ok shell_sizeI) =>
                if leQIr shell_sizeI ps.min_shell_size_with_margin then (s, .ok none)
                else
                  let d1 := s.world.distance ps.com pos1
                  let d2 := s.world.distance ps.com sg2.shell.position
                  let singles_bound :=
                    (max (d1 + sg1.particle.radius * SINGLE_SHELL_FACTOR)
                         (d2 + sg2.particle.radius * SINGLE_SHELL_FACTOR)) * (13/10)
                  if ltQIr shell_sizeI singles_bound then (s, .ok none)
                  else
                    let shell_size :=
                      match shell_sizeI with
                      | some v => min v max_shell_size
                      | none => max_shell_size
                    match create_pair s sg1 sg2 ps.com ps.r0 shell_size o with
                    | (s, .error e) => (s, .error e)
                    | (s, .ok p) =>
                      let ne := o.pairNextEvent p ps.r0
                      let p := { p with dt := ne.1 }
                      let p := { p with event_type := (ne.2).1 }
                      let p := { p with reacting_is_1 := (ne.2).2 }
                      let s := sync_domain s (.pair p)
                      if ¬ (p.dt ≥ 0) then (s, .error .assertionError)
                      else
                        let s := { s with sim_last_time := s.t }
                        match remove_domain s (.single sg1) with
                        | (s, .error e) => (s, .error e)
                        | (s, .ok _) =>
                          match remove_domain s (.single sg2) with
                          | (s, .error e) => (s, .error e)
                          | (s, .ok _) =>
                            match remove_event s sg2.event_id with
                            | (s, .error e) => (s, .error e)
                            | (s, .ok _) =>
                              if (match closest_shell_distance with
                                  | none => true
                                  | some csd => decide (shell_size < csd)) = false then
                                (s, .error .assertionError)
                              else if ¬ (ps.min_shell_size_with_margin ≤ shell_size) then
                                (s, .error .assertionError)
                              else if ¬ (shell_size ≤ max_shell_size) then
                                (s, .error .assertionError)
                              else
                                match check_obj s (.pair p) with
                                | .error e => (s, .error e)
                                | .ok _ =>
                                  let (s, p) := add_pair_event s p
                                  (s, .ok (some (.pair p)))

/-- `new_spherical_shell(domain_id, pos, size)`. -/
def new_spherical_shell (s : Sim) (domain_id : ℕ) (pos size : ℚ) : Sim × (ℕ × Shell) :=
  let shell_id := s.next_shell_id
  let shell : Shell := { did := domain_id, position := pos, radius := size }
  let s := { s with next_shell_id := shell_id + 1 }
  (move_shell s (shell_id, shell), (shell_id, shell))

/-- `add_to_multi(single, multi)`: give the particle a small fixed-factor
shell owned by the multi and absorb it. -/
def add_to_multi (s : Sim) (sg : Single) (m : MultiD) : Sim × MultiD :=
  let (s, pr) := new_spherical_shell s m.domain_id sg.particle.position
    (sg.particle.radius * (1 + MULTI_SHELL_FACTOR))
  let m := { m with shells := m.shells ++ [pr],
                    particles := m.particles ++ [(sg.pid, sg.particle)] }
  (sync_domain s (.multi m), m)

def MultiD.has_particle (m : MultiD) (pid : ℕ) : Bool :=
  m.particles.any (fun pp => pp.1 == pid)

/-- `merge_multis(multi1, multi2)`: re-own every shell of `multi1` under
`multi2`, move the particles over, drop `multi1` from the table and the
scheduler. -/
def merge_multis (s : Sim) (m1 m2 : MultiD) : Sim × Except Err MultiD :=
  let moved := m1.shells.map (fun pr => (pr.1, { pr.2 with did := m2.domain_id }))
  let s := moved.foldl (fun s pr => move_shell s pr) s
  let m2 := { m2 with shells := m2.shells ++ moved,
                      particles := m2.particles ++ m1.particles }
  let s := sync_domain s (.multi m2)
  match lookupL s.domains m1.domain_id with
  | none => (s, .error .keyError)
  | some _ =>
    let s := { s with domains := removeL s.domains m1.domain_id }
    match remove_event s m1.event_id with
    | (s, .error e) => (s, .error e)
    | (s, .ok _) => (s, .ok m2)

/-- `add_to_multi_recursive` over a worklist of neighbor domains: the
depth-first absorption of spec section 4.4, expressed with explicit fuel
(one unit per processed object; the callers hand over more fuel than
there are domains, so exhaustion models only unreachable divergence). -/
def add_to_multi_rec_list (o : Oracle) : ℕ → Sim → List Domain → MultiD →
    Sim × Except Err MultiD
  | 0, s, l, m =>
    (match l with
     | [] => (s, .ok m)
     | _ => (s, .error .runtimeError))
  | fuel + 1, s, l, m =>
    match l with
    | [] => (s, .ok m)
    | obj :: rest =>
      match obj with
      | .single sg =>
        if m.has_particle sg.pid then add_to_multi_rec_list o fuel s rest m
        else if ¬ is_reset sg then (s, .error .assertionError)
        else
          let objpos := sg.shell.position
          let (s, m) := add_to_multi s sg m
          match remove_domain s (.single sg) with
          | (s, .error e) => (s, .error e)
          | (s, .ok _) =>
            match remove_event s sg.event_id with
            | (s, .error e) => (s, .error e)
            | (s, .ok _) =>
              let radius := sg.particle.radius * (1 + MULTI_SHELL_FACTOR)
              match get_neighbors_within_radius_no_sort s objpos radius [sg.domain_id] with
              | .error e => (s, .error e)
              | .ok neighbors =>
                match burst_non_multis s neighbors o with
                | (s, .error e) => (s, .error e)
                | (s, .ok burst) =>
                  let neighbor_dists := obj_distance_array s objpos burst
                  let nbrs := ((neighbor_dists.zip burst).filter
                    (fun pr => decide (pr.1 ≤ radius))).map (·.2)
                  match add_to_multi_rec_list o fuel s nbrs m with
                  | (s, .error e) => (s, .error e)
                  | (s, .ok m) => add_to_multi_rec_list o fuel s rest m
      | .multi m1 =>
        if m.particles.any (fun pp => m1.has_particle pp.1) then
          add_to_multi_rec_list o fuel s rest m
        else
          match merge_multis s m1 m with
          | (s, .error e) => (s, .error e)
          | (s, .ok m) => add_to_multi_rec_list o fuel s rest m
      | .pair _ => (s, .error .assertionError)

/-- `form_multi(single, neighbors, dists)`: contiguity test against the
small fixed-factor shell, then either a fresh multi (closest neighbor a
single) or extension of the closest multi, absorbing recursively. -/
def form_multi (s : Sim) (sg : Single) (neighbors : List Domain) (dists : List ℚ)
    (o : Oracle) : Sim × Except Err (Option Domain) :=
  let min_shell := sg.particle.radius * (1 + MULTI_SHELL_FACTOR)
  match dists with
  | [] => (s, .error .runtimeError)
  | d0 :: _ =>
    if d0 > min_shell then (s, .ok none)
    else
      let nbrs := ((dists.zip neighbors).filter
        (fun pr => decide (pr.1 ≤ min_shell))).map (·.2)
      match nbrs with
      | [] => (s, .error .runtimeError)
      | closest :: nrest =>
        match closest with
        | .single _ =>
          let (s, m) := create_multi s
          let (s, m) := add_to_multi s sg m
          match remove_domain s (.single sg) with
          | (s, .error e) => (s, .error e)
          | (s, .ok _) =>
            match add_to_multi_rec_list o (s.domains.length + nbrs.length + 1) s nbrs m with
            | (s, .error e) => (s, .error e)
            | (s, .ok m) =>
              let m := { m with dt := o.multiInitDt m, last_event := none }
              let s := sync_domain s (.multi m)
              let (s, m) := add_multi_event s m
              (s, .ok (some (.multi m)))
        | .multi m0 =>
          let (s, m) := add_to_multi s sg m0
          match remove_domain s (.single sg) with
          | (s, .error e) => (s, .error e)
          | (s, .ok _) =>
            match add_to_multi_rec_list o (s.domains.length + nrest.length + 1) s nrest m with
            | (s, .error e) => (s, .error e)
            | (s, .ok m) =>
              let m := { m with dt := o.multiInitDt m, last_event := none }
              let s := sync_domain s (.multi m)
              match update_event s m.event_id { time := s.t + m.dt, did := m.domain_id } with
              | (s, .error e) => (s, .error e)
              | (s, .ok _) => (s, .ok (some (.multi m)))
        | .pair _ => (s, .error .assertionError)

/-- Stable ascending insertion for `(distance, domain)` pairs
(`numpy.argsort` of `form_pair_or_multi`). -/
def insertObjByDist (x : ℚ × Domain) : List (ℚ × Domain) → List (ℚ × Domain)
  | [] => [x]
  | y :: ys => if x.1 < y.1 then x :: y :: ys else y :: insertObjByDist x ys

/-- `form_pair_or_multi(single, neighbors)`: sort burst neighbors by
distance, try a pair with the closest when it is a single, otherwise (or
on pair rejection) try a multi. -/
def form_pair_or_multi (s : Sim) (sg : Single) (neighbors : List Domain) (o : Oracle) :
    Sim × Except Err (Option Domain) :=
  match neighbors with
  | [] => (s, .error .assertionError)
  | _ =>
    let singlepos := sg.shell.position
    let dists := obj_distance_array s singlepos neighbors
    let sorted := (dists.zip neighbors).foldr insertObjByDist []
    let neighbors := sorted.map (·.2)
    let dists := sorted.map (·.1)
    let tried : Sim × Except Err (Option Domain) :=
      match neighbors with
      | Domain.single n0 :: _ => form_pair s sg singlepos n0 (neighbors.drop 1) o
      | _ => (s, .ok none)
    match tried with
    | (s, .error e) => (s, .error e)
    | (s, .ok (some d)) => (s, .ok (some d))
    | (s, .ok none) => form_multi s sg neighbors dists o

/-! The event-firing dispatchers and the loop. -/

/-- `self.single_steps[event_type] += 1`: the dictionary only has the
escape and reaction keys, any other event type is a `KeyError`. -/
def bump_single_steps (s : Sim) (et : EventType) : Sim × Except Err Unit :=
  match et with
  | .SINGLE_ESCAPE => ({ s with single_steps_escape := s.single_steps_escape + 1 }, .ok ())
  | .SINGLE_REACTION =>
    ({ s with single_steps_reaction := s.single_steps_reaction + 1 }, .ok ())
  | _ => (s, .error .keyError)

/-- `self.interaction_steps[event_type] += 1` (keys `IV_ESCAPE` and
`IV_INTERACTION`). -/
def bump_interaction_steps (s : Sim) (et : EventType) : Sim × Except Err Unit :=
  match et with
  | .IV_ESCAPE =>
    ({ s with interaction_steps_escape := s.interaction_steps_escape + 1 }, .ok ())
  | .IV_INTERACTION =>
    ({ s with interaction_steps_interaction := s.interaction_steps_interaction + 1 }, .ok ())
  | _ => (s, .error .keyError)

/-- Restore loop of `fire_single` (lines 812-827): every bursted single
gets its shell re-grown against its own closest neighbor and its event
re-keyed to `t + dt`. -/
def restore_burst_singles (s : Sim) (o : Oracle) : List Domain → Sim × Except Err Unit
  | [] => (s, .ok ())
  | Domain.single b :: rest =>
    if ¬ is_reset b then (s, .error .assertionError)
    else
      match get_closest_obj s b.shell.position [b.domain_id] with
      | .error e => (s, .error e)
      | .ok (closest, closest_distance) =>
        let (s, b) := update_single s b closest closest_distance o
        match update_event s b.event_id { time := s.t + b.dt, did := b.domain_id } with
        | (s, .error e) => (s, .error e)
        | (s, .ok _) => restore_burst_singles s o rest
  | _ :: rest => restore_burst_singles s o rest

/-- Tail of `fire_single` after propagation (lines 781-837): find
intruders inside the minimal protective radius; either update the shell
directly (no intruders) or burst the non-multi intruders, try pair/multi
formation, and on failure restore the single and every bursted single;
in all surviving branches the single is rescheduled. -/
def fire_single_rest (s : Sim) (sg : Single) (o : Oracle) : Sim × Except Err Unit :=
  let singlepos := sg.shell.position
  let min_shell := sg.particle.radius * SINGLE_SHELL_FACTOR
  match get_intruders s singlepos min_shell [sg.domain_id] with
  | .error e => (s, .error e)
  | .ok (intruders, closest, closest_distance) =>
    match intruders with
    | [] =>
      let (s, sg) := update_single s sg closest closest_distance o
      ((add_single_event s sg).1, .ok ())
    | _ =>
      match burst_non_multis s intruders o with
      | (s, .error e) => (s, .error e)
      | (s, .ok burst) =>
        match form_pair_or_multi s sg burst o with
        | (s, .error e) => (s, .error e)
        | (s, .ok (some _)) => (s, .ok ())
        | (s, .ok none) =>
          let burst := uniqDomains burst
          match get_closest_obj s singlepos [sg.domain_id] with
          | .error e => (s, .error e)
          | .ok (closest, closest_distance) =>
            let (s, sg) := update_single s sg closest closest_distance o
            match restore_burst_singles s o burst with
            | (s, .error e) => (s, .error e)
            | (s, .ok _) => ((add_single_event s sg).1, .ok ())

/-- Branches of `fire_single` other than the reaction branch: possible
IV redraw and step counting, the immobile shortcut (no propagation, only
a new `(dt, event_type)` from `determine_next_event`, `last_time`
stamped, one new event), else propagation when time elapsed and the
post-propagation tail. -/
def fire_single_nonreaction (s : Sim) (sg : Single) (o : Oracle) : Sim × Except Err Unit :=
  let redrawn : Sim × Except Err Single :=
    if sg.event_type = .IV_EVENT then
      let sg := { sg with event_type := o.drawIv sg }
      match bump_interaction_steps s sg.event_type with
      | (s, .error e) => (s, .error e)
      | (s, .ok _) => (sync_domain s (.single sg), .ok sg)
    else
      match bump_single_steps s sg.event_type with
      | (s, .error e) => (s, .error e)
      | (s, .ok _) => (s, .ok sg)
  match redrawn with
  | (s, .error e) => (s, .error e)
  | (s, .ok sg) =>
    if sg.particle.D = 0 then
      let ne := o.nextEvent sg
      let sg := { sg with dt := ne.1, event_type := ne.2, last_time := s.t }
      let s := sync_domain s (.single sg)
      ((add_single_event s sg).1, .ok ())
    else if sg.dt ≠ 0 then
      match propagate_single s sg o with
      | (s, .error e) => (s, .error e)
      | (s, .ok sg) => fire_single_rest s sg o
    else fire_single_rest s sg o

/-- `fire_single(single)`: the entry timing assertion, then the reaction
branch (propagate, drop the domain, fire the reaction, and catch
`NoSpace` by rejecting - the condition never leaves this function), or
the non-reaction handling. -/
def fire_single (s : Sim) (sg : Single) (o : Oracle) : Sim × Except Err Unit :=
  if ¬ (|sg.dt + sg.last_time - s.t| ≤ ASSERT_DT_TOL * s.t) then (s, .error .assertionError)
  else if sg.event_type = .SINGLE_REACTION then
    let s := { s with single_steps_reaction := s.single_steps_reaction + 1 }
    match propagate_single s sg o with
    | (s, .error e) => (s, .error e)
    | (s, .ok sg1) =>
      match remove_domain s (.single sg1) with
      | (s, .error .noSpace) => (reject_single_reaction s sg1, .ok ())
      | (s, .error e) => (s, .error e)
      | (s, .ok _) =>
        match fire_single_reaction s sg1 o with
        | (s, .error .noSpace) => (reject_single_reaction s sg1, .ok ())
        | (s, .error e) => (s, .error e)
        | (s, .ok _) => (s, .ok ())
  else fire_single_nonreaction s sg o

/-- `fire_pair(pair)`: the entry `check_obj` assertion, the last-minute
IV draw, then one of the four cases - component single reaction (burst,
reschedule the other, fire the reaction catching `NoSpace`), pair
reaction (zero or one product), or the two escape flavors. -/
def fire_pair (s : Sim) (p : PairD) (o : Oracle) : Sim × Except Err Unit :=
  match check_obj s (.pair p) with
  | .error e => (s, .error e)
  | .ok _ =>
    let single1 := p.single1
    let single2 := p.single2
    let pos1 := single1.particle.position
    let pos2 := single2.particle.position
    let p :=
      if p.event_type = .IV_EVENT then
        { p with event_type := o.pairDrawIv p (s.world.distance pos1 pos2) }
      else p
    let s := sync_domain s (.pair p)
    let s := { s with pair_steps_total := s.pair_steps_total + 1 }
    let old_com := p.com
    if p.event_type = .SINGLE_REACTION then
      match burst_pair s p o with
      | (s, .error e) => (s, .error e)
      | (s, .ok (ns1, ns2)) =>
        let reactingsingle := if p.reacting_is_1 then ns1 else ns2
        let theothersingle := if p.reacting_is_1 then ns2 else ns1
        let (s, _) := add_single_event s theothersingle
        match remove_domain s (.single reactingsingle) with
        | (s, .error .noSpace) => (reject_single_reaction s reactingsingle, .ok ())
        | (s, .error e) => (s, .error e)
        | (s, .ok _) =>
          match fire_single_reaction s reactingsingle o with
          | (s, .error .noSpace) => (reject_single_reaction s reactingsingle, .ok ())
          | (s, .error e) => (s, .error e)
          | (s, .ok _) => (s, .ok ())
    else if p.event_type = .IV_REACTION then
      match s.world.remove_particle single1.pid with
      | .error e => (s, .error e)
      | .ok w =>
        match w.remove_particle single2.pid with
        | .error e => ({ s with world := w }, .error e)
        | .ok w =>
          let s := { s with world := w }
          let produced : Sim × Except Err Unit :=
            match p.rt.products with
            | [sid3] =>
              match s.world.get_species sid3 with
              | none => (s, .error .keyError)
              | some species3 =>
                let new_com := o.pairDrawCom p p.dt p.event_type
                if ¬ (s.world.distance old_com new_com <
                      p.shell.radius - species3.radius) then (s, .error .assertionError)
                else
                  let new_com := s.world.apply_boundary new_com
                  let (s, npr) := world_new_particle s species3 new_com
                  match create_single s npr.1 npr.2 with
                  | (s, .error e) => (s, .error e)
                  | (s, .ok product) =>
                    let (s, _) := add_single_event s product
                    let s := { s with reaction_events := s.reaction_events + 1 }
                    ({ s with last_reaction := some (p.rt, [npr.1]) }, .ok ())
            | [] => (s, .ok ())
            | _ => (s, .error .notImplemented)
          match produced with
          | (s, .error e) => (s, .error e)
          | (s, .ok _) =>
            match remove_domain s (.pair p) with
            | (s, .error e) => (s, .error e)
            | (s, .ok _) => (s, .ok ())
    else if p.event_type = .IV_ESCAPE ∨ p.event_type = .COM_ESCAPE then
      match propagate_pair s p p.dt p.event_type o with
      | (s, .error e) => (s, .error e)
      | (s, .ok (ns1, ns2)) =>
        let (s, _) := add_single_event s ns1
        let (s, _) := add_single_event s ns2
        (s, .ok ())
    else (s, .error .runtimeError)

/-- `fire_multi(multi)`: count the step, advance the multi by one
Brownian step (`multi.step()` lives in `multi.py`, outside `src/`;
modelled from the spec via the oracle: new member positions and an
optional member event), count reactions, and either break the multi up
(an event happened) or reschedule it. -/
def fire_multi (s : Sim) (m : MultiD) (o : Oracle) : Sim × Except Err Unit :=
  let s := { s with multi_steps_total := s.multi_steps_total + 1 }
  let stepped := o.multiStep m
  let m := { m with particles := stepped.1, last_event := stepped.2 }
  let s := stepped.1.foldl (fun s pr => { s with world := s.world.update_particle pr.1 pr.2 }) s
  let s := sync_domain s (.multi m)
  let s :=
    if m.last_event = some .MULTI_UNIMOLECULAR_REACTION ∨
       m.last_event = some .MULTI_BIMOLECULAR_REACTION then
      { s with reaction_events := s.reaction_events + 1 }
    else s
  match m.last_event with
  | some _ =>
    match break_up_multi s m with
    | (s, .error e) => (s, .error e)
    | (s, .ok _) => (s, .ok ())
  | none => ((add_multi_event s m).1, .ok ())

/-- Entry bookkeeping of `step()` up to and including the pop of the
earliest event: clear `last_reaction`, count the step, remove the popped
event and advance the clock to its firing time. -/
def step_popped (s : Sim) (eid : ℕ) (ev : DEvent) : Sim :=
  { s with last_reaction := none, step_counter := s.step_counter + 1,
           scheduler := removeL s.scheduler eid, t := ev.time,
           last_event_did := some ev.did }

/-- `step()`: pop the earliest event, advance the clock to it, dispatch
on the owning domain's variant, then recompute `dt` against the new
scheduler top with the non-empty and zero-step diagnostics of the
source.  (The `is_dirty` re-build and the opt-in `ECELL_CHECK` hook are
constructor/environment concerns outside the embedded loop.) -/
def step (s : Sim) (o : Oracle) : Sim × Except Err Unit :=
  match sched_top s.scheduler with
  | none =>
    ({ s with last_reaction := none, step_counter := s.step_counter + 1 },
     .error .runtimeError)
  | some (eid, ev) =>
    let s := step_popped s eid ev
    match lookupL s.domains ev.did with
    | none => (s, .error .keyError)
    | some d =>
      let fired : Sim × Except Err Unit :=
        match d with
        | .single sg => fire_single s sg o
        | .pair p => fire_pair s p o
        | .multi m => fire_multi s m o
      match fired with
      | (s, .error e) => (s, .error e)
      | (s, .ok _) =>
        match sched_top s.scheduler with
        | none => (s, .error .runtimeError)
        | some (_, nev) =>
          let s := { s with dt := nev.time - s.t }
          if s.dt = (0 : ℚ) then
            let s := { s with zero_steps := s.zero_steps + 1 }
            if max (s.scheduler.length * 3) 10 ≤ s.zero_steps then
              (s, .error .runtimeError)
            else (s, .ok ())
          else ({ s with zero_steps := 0 }, .ok ())

/-- Scan of `stop`: burst every scheduled single immediately, collect
pairs and multis for the second phase. -/
def stop_burst_loop (s : Sim) (o : Oracle) : List (ℕ × DEvent) → Sim × Except Err (List Domain)
  | [] => (s, .ok [])
  | (_, ev) :: rest =>
    match lookupL s.domains ev.did with
    | none => (s, .error .keyError)
    | some (.single sg) =>
      match burst_single s sg o with
      | (s, .error e) => (s, .error e)
      | (s, .ok _) => stop_burst_loop s o rest
    | some d =>
      match stop_burst_loop s o rest with
      | (s, .error e) => (s, .error e)
      | (s, .ok l) => (s, .ok (d :: l))

/-- `stop(t)`: no-op when already at `t`; `RuntimeError` when `t` is at
or past the scheduler top or before the current time (peeking an empty
scheduler is itself fatal); otherwise advance the clock, burst all
singles then all pairs and multis, and zero `dt`. -/
def stop (s : Sim) (t : ℚ) (o : Oracle) : Sim × Except Err Unit :=
  if s.t = t then (s, .ok ())
  else
    match sched_top s.scheduler with
    | none => (s, .error .runtimeError)
    | some (_, ev) =>
      if t ≥ ev.time then (s, .error .runtimeError)
      else if t < s.t then (s, .error .runtimeError)
      else
        let s := { s with t := t }
        match stop_burst_loop s o s.scheduler with
        | (s, .error e) => (s, .error e)
        | (s, .ok non_single_list) =>
          match burst_objs s non_single_list o with
          | (s, .error e) => (s, .error e)
          | (s, .ok _) => ({ s with dt := 0 }, .ok ())

/-! The consistency checkers. -/

/-- Sum of the multiplicities of the scheduled domains
(`event.data.multiplicity` over the scheduler). -/
def event_population (s : Sim) : List (ℕ × DEvent) → Except Err ℕ
  | [] => .ok 0
  | (_, ev) :: rest =>
    match lookupL s.domains ev.did with
    | none => .error .keyError
    | some d =>
      match event_population s rest with
      | .error e => .error e
      | .ok n => .ok (d.multiplicity + n)

/-- `check_event_stoichiometry()`: compare the world's particle count
with the summed event multiplicities.  On mismatch the source evaluates
`'population %d != event_population %d' % (population, event_population)`
- but `population` is not defined in this scope, so Python raises
`NameError` before the intended `RuntimeError` (with both counts in its
message) is ever constructed. -/
def check_event_stoichiometry (s : Sim) : Sim × Except Err Unit :=
  match event_population s s.scheduler with
  | .error e => (s, .error e)
  | .ok ep =>
    if s.world.num_particles ≠ ep then (s, .error .nameError)
    else (s, .ok ())

/-- `check_obj_for_all()`. -/
def check_obj_for_all (s : Sim) : List (ℕ × DEvent) → Except Err Unit
  | [] => .ok ()
  | (_, ev) :: rest =>
    match lookupL s.domains ev.did with
    | none => .error .keyError
    | some d =>
      match check_obj s d with
      | .error e => .error e
      | .ok _ => check_obj_for_all s rest

/-! Auxiliary predicates used by the theorems. -/

/-- The `i`-th placement attempt of the dissociation retry loop separates
its candidate positions but at least one of them overlaps an existing
particle (so the loop moves on to the next attempt). -/
def attempt_rejected (w : World) (pid : ℕ) (o : Oracle)
    (oldpos D1 D2 D12 r1 r2 r12 : ℚ) (i : ℕ) : Bool :=
  match separate_loop w oldpos D1 D2 D12 r12 (o.vectors i) SEPARATION_FUEL with
  | none => false
  | some pr => !((!(w.check_overlap pr.1 r1 [pid])) && (!(w.check_overlap pr.2 r2 [pid])))

/-- Extract the payload of a successful `Except`, with a default. -/
def okOr {α : Type} (d : α) : Except Err α → α
  | .ok a => a
  | .error _ => d

/-- State-frame facts preserved by the whole bursting call chain: the
clock, the rejected-move counter, the particle-id census, and the
configured retry count. -/
def burst_keeps (a b : Sim) : Prop :=
  b.t = a.t ∧ b.rejected_moves = a.rejected_moves ∧ pidsOf b.world = pidsOf a.world ∧
  b.dissociation_retry_moves = a.dissociation_retry_moves

/-- The weaker frame preserved by reaction firing (which may create and
remove particles): clock, rejected-move counter and retry count. -/
def keeps_tr (a b : Sim) : Prop :=
  b.t = a.t ∧ b.rejected_moves = a.rejected_moves ∧
  b.dissociation_retry_moves = a.dissociation_retry_moves

/-! Concrete fixtures used by the witness and counterexample theorems. -/

/-- One-dimensional metric of the witness worlds. -/
def wdist (a b : ℚ) : ℚ := if a ≤ b then b - a else a - b

/-- A witness world: one-dimensional, no boundary wrap, identity
transpose, midpoint center of mass, identity square root. -/
def baseWorld : World :=
  { particles := [], species := [], world_size := 1000, matrix_size := 10,
    distance := wdist, apply_boundary := fun p => p,
    cyclic_transpose := fun p _ => p,
    calculate_pair_CoM := fun p1 p2 _ _ => (p1 + p2) / 2,
    sqrtQ := fun q => q }

def spA : Species := { id := 0, radius := 1, D := 1 }

def spBig : Species := { id := 1, radius := 2, D := 1 }

def spZ : Species := { id := 2, radius := 1, D := 0 }

/-- Unimolecular rule producing the bigger species. -/
def ruleToBig : Rule := { k := 1, products := [1] }

/-- Unimolecular decay rule with no products. -/
def ruleNone : Rule := { k := 1, products := [] }

/-- Dissociation rule with two unit-species products. -/
def ruleTwo : Rule := { k := 1, products := [0, 0] }

/-- A deterministic witness oracle: positions are redrawn in place,
`determine_next_event` always answers an escape after one time unit, the
first applicable rule is drawn, and dissociation vectors have length 2. -/
def baseOracle : Oracle :=
  { drawNewPosition := fun sg _ _ => sg.particle.position,
    nextEvent := fun _ => (1, .SINGLE_ESCAPE),
    drawRule := fun sg =>
      match sg.rts with
      | r :: _ => r
      | [] => { k := 0, products := [] },
    drawIv := fun _ => .IV_ESCAPE,
    vectors := fun _ => 2,
    choosePairRule := fun l =>
      match l with
      | r :: _ => r
      | [] => { k := 0, products := [] },
    pairNextEvent := fun _ _ => (1, .COM_ESCAPE, true),
    pairDrawIv := fun _ _ => .IV_ESCAPE,
    pairDrawPositions := fun _ _ _ _ _ => (0, 0),
    pairDrawCom := fun _ _ _ => 0,
    multiInitDt := fun _ => 1,
    multiStep := fun m => (m.particles, none) }

/-- An empty witness simulator over `baseWorld`. -/
def baseSim : Sim :=
  { world := baseWorld, t := 0, dt := 0, domains := [], shells := [], scheduler := [],
    next_event_id := 0, next_domain_id := 0, next_shell_id := 0, next_pid := 0,
    rejected_moves := 0, reaction_events := 0, single_steps_escape := 0,
    single_steps_reaction := 0, interaction_steps_escape := 0,
    interaction_steps_interaction := 0, pair_steps_total := 0, multi_steps_total := 0,
    zero_steps := 0, step_counter := 0, sim_last_time := 0, last_reaction := none,
    last_event_did := none, user_max_shell_size := none, dissociation_retry_moves := 3,
    network_rules1 := fun _ => [], network_rules2 := fun _ _ => [] }

def partA : Particle := { position := 0, radius := 1, D := 1, sid := 0 }

def partB : Particle := { position := 5/2, radius := 1, D := 1, sid := 0 }

def shellA : Shell := { did := 0, position := 0, radius := 1 }

/-- Reactant single about to fire a reaction whose product (radius 2)
cannot be placed: particle B sits 5/2 away. -/
def sgC1 : Single :=
  { domain_id := 0, pid := 0, particle := partA, shell_id := 0, shell := shellA,
    last_time := 0, dt := 0, event_type := .SINGLE_REACTION, event_id := 0,
    rts := [ruleToBig] }

def simC1 : Sim :=
  { baseSim with
    world := { baseWorld with particles := [(0, partA), (1, partB)],
                              species := [spA, spBig] },
    domains := [(0, .single sgC1)], shells := [(0, shellA)] }

def s1C1 : Sim :=
  (propagate_single
    { simC1 with single_steps_reaction := simC1.single_steps_reaction + 1 }
    sgC1 baseOracle).1

def sg1C1 : Single :=
  okOr sgC1 (propagate_single
    { simC1 with single_steps_reaction := simC1.single_steps_reaction + 1 }
    sgC1 baseOracle).2

def s2C1 : Sim := (remove_domain s1C1 (.single sg1C1)).1

def s3C1 : Sim := (fire_single_reaction s2C1 sg1C1 baseOracle).1

/-- State already at time 5 with a pending event also at time 5: `stop 5`
is the silent early-return case. -/
def simC2 : Sim := { baseSim with t := 5, scheduler := [(0, { time := 5, did := 0 })] }

/-- State at time 0 with its next event at time 5. -/
def simC2b : Sim := { baseSim with t := 0, scheduler := [(0, { time := 5, did := 0 })] }

def partC4b : Particle := { position := 10, radius := 1, D := 1, sid := 0 }

def sgC4a : Single :=
  { domain_id := 0, pid := 0, particle := partA, shell_id := 0, shell := shellA,
    last_time := 0, dt := 0, event_type := .SINGLE_REACTION, event_id := 0,
    rts := [ruleNone] }

def shellC4b : Shell := { did := 1, position := 10, radius := 1 }

def sgC4b : Single :=
  { domain_id := 1, pid := 1, particle := partC4b, shell_id := 1, shell := shellC4b,
    last_time := 0, dt := 10, event_type := .SINGLE_ESCAPE, event_id := 1, rts := [ruleNone] }

/-- Two scheduled singles; the earlier event is a zero-product reaction. -/
def simC4 : Sim :=
  { baseSim with
    world := { baseWorld with particles := [(0, partA), (1, partC4b)], species := [spA] },
    domains := [(0, .single sgC4a), (1, .single sgC4b)],
    shells := [(0, shellA), (1, shellC4b)],
    scheduler := [(0, { time := 0, did := 0 }), (1, { time := 10, did := 1 })],
    next_event_id := 2 }

def s0C4 : Sim := step_popped simC4 0 { time := 0, did := 0 }

def s1C4 : Sim :=
  (propagate_single
    { s0C4 with single_steps_reaction := s0C4.single_steps_reaction + 1 }
    sgC4a baseOracle).1

def sg1C4 : Single :=
  okOr sgC4a (propagate_single
    { s0C4 with single_steps_reaction := s0C4.single_steps_reaction + 1 }
    sgC4a baseOracle).2

def s2C4 : Sim := (remove_domain s1C4 (.single sg1C4)).1

def w3C4 : World := okOr s2C4.world (s2C4.world.remove_particle sg1C4.pid)

def partBlock : Particle := { position := 1, radius := 1, D := 1, sid := 0 }

/-- Reactant of a two-product dissociation in a packed neighborhood:
particle 1 blocks every candidate product position. -/
def sgC5 : Single :=
  { domain_id := 0, pid := 0, particle := partA, shell_id := 0, shell := shellA,
    last_time := 0, dt := 0, event_type := .SINGLE_REACTION, event_id := 0,
    rts := [ruleTwo] }

def simC5 : Sim :=
  { baseSim with
    world := { baseWorld with particles := [(0, partA), (1, partBlock)], species := [spA] },
    dissociation_retry_moves := 2 }

def sgC7a : Single :=
  { domain_id := 0, pid := 0, particle := partA, shell_id := 0, shell := shellA,
    last_time := 0, dt := 0, event_type := .SINGLE_ESCAPE, event_id := 0, rts := [] }

def partC7b : Particle := { position := 3, radius := 1, D := 1, sid := 0 }

def shellC7b : Shell := { did := 1, position := 3, radius := 1 }

def sgC7b : Single :=
  { domain_id := 1, pid := 1, particle := partC7b, shell_id := 1, shell := shellC7b,
    last_time := 0, dt := 0, event_type := .SINGLE_ESCAPE, event_id := 1, rts := [] }

/-- Two reset singles whose minimal pair shell (with margin) towers above
the tiny world's maximum shell size. -/
def simC7 : Sim :=
  { baseSim with
    world := { baseWorld with world_size := 10, matrix_size := 10,
                              particles := [(0, partA), (1, partC7b)],
                              species := [spA] },
    user_max_shell_size := some 1,
    domains := [(0, .single sgC7a), (1, .single sgC7b)],
    shells := [(0, shellA), (1, shellC7b)] }

def partZ : Particle := { position := 0, radius := 1, D := 0, sid := 2 }

/-- An immobile single whose pending event is a zero-product reaction:
the counterexample configuration for the immobile-handling claim. -/
def sgC8x : Single :=
  { domain_id := 0, pid := 0, particle := partZ, shell_id := 0, shell := shellA,
    last_time := 0, dt := 0, event_type := .SINGLE_REACTION, event_id := 0,
    rts := [ruleNone] }

def simC8x : Sim :=
  { baseSim with
    world := { baseWorld with particles := [(0, partZ)], species := [spZ] },
    domains := [(0, .single sgC8x)], shells := [(0, shellA)] }

/-- An immobile single firing a (vacuous) escape. -/
def sgC8 : Single :=
  { domain_id := 0, pid := 0, particle := partZ, shell_id := 0, shell := shellA,
    last_time := 0, dt := 0, event_type := .SINGLE_ESCAPE, event_id := 0,
    rts := [ruleNone] }

def simC8 : Sim :=
  { baseSim with
    world := { baseWorld with particles := [(0, partZ)], species := [spZ] },
    domains := [(0, .single sgC8)], shells := [(0, shellA)] }

def shellWide : Shell := { did := 0, position := 0, radius := 10 }

/-- A scheduled single halfway through its protective interval. -/
def sgC6 : Single :=
  { domain_id := 0, pid := 0, particle := partA, shell_id := 0, shell := shellWide,
    last_time := 0, dt := 10, event_type := .SINGLE_ESCAPE, event_id := 0, rts := [] }

def simC6 : Sim :=
  { baseSim with
    world := { baseWorld with particles := [(0, partA)], species := [spA] },
    domains := [(0, .single sgC6)], shells := [(0, shellWide)],
    scheduler := [(0, { time := 10, did := 0 })], next_event_id := 1 }

def s2C6 : Sim := (stop simC6 5 baseOracle).1

def sgC10 : Single := sgC6

def simC10 : Sim := { simC6 with t := 5 }

def s2C10 : Sim := (burst_single simC10 sgC10 baseOracle).1

def sg2C10 : Single := okOr sgC10 (burst_single simC10 sgC10 baseOracle).2

/-- One particle but an empty scheduler: the stoichiometry checker's
mismatch branch. -/
def simC9 : Sim :=
  { baseSim with world := { baseWorld with particles := [(0, partA)], species := [spA] } }

/-! Association-list lemmas. -/

theorem lookupL_upsert_self {α : Type} (l : List (ℕ × α)) (k : ℕ) (v : α) :
    lookupL (upsertL l k v) k = some v := by
  induction l with
  | nil => simp [upsertL, lookupL]
  | cons x xs ih =>
    obtain ⟨k2, v2⟩ := x
    by_cases h : k2 = k
    · simp [upsertL, h, lookupL]
    · simp [upsertL, h, lookupL, ih]

theorem lookupL_removeL_self {α : Type} (l : List (ℕ × α)) (k : ℕ) :
    lookupL (removeL l k) k = none := by
  induction l with
  | nil => simp [removeL, lookupL]
  | cons x xs ih =>
    obtain ⟨k2, v2⟩ := x
    by_cases h : k2 = k
    · simpa [removeL, List.filter_cons, h] using ih
    · simpa [removeL, List.filter_cons, h, lookupL] using ih

theorem lookupL_isSome_iff {α : Type} (l : List (ℕ × α)) (k : ℕ) :
    (lookupL l k).isSome ↔ k ∈ l.map Prod.fst := by
  induction l with
  | nil => simp [lookupL]
  | cons x xs ih =>
    obtain ⟨k2, v2⟩ := x
    by_cases h : k2 = k
    · simp [lookupL, h]
    · simp [lookupL, h, ih, Ne.symm h]

theorem removeL_eq_self_of_not_mem {α : Type} (l : List (ℕ × α)) (k : ℕ)
    (h : k ∉ l.map Prod.fst) : removeL l k = l := by
  induction l with
  | nil => rfl
  | cons x xs ih =>
    obtain ⟨k2, v2⟩ := x
    simp only [List.map_cons, List.mem_cons] at h
    push_neg at h
    have h1 : ((k2, v2).1 != k) = true := by
      simp only [bne_iff_ne, ne_eq]
      exact fun hh => h.1 hh.symm
    unfold removeL
    rw [List.filter_cons, if_pos h1]
    have h2 := ih h.2
    unfold removeL at h2
    rw [h2]

theorem length_removeL {α : Type} (l : List (ℕ × α)) (k : ℕ)
    (hnd : (l.map Prod.fst).Nodup) (hm : (lookupL l k).isSome) :
    (removeL l k).length + 1 = l.length := by
  induction l with
  | nil => simp [lookupL] at hm
  | cons x xs ih =>
    obtain ⟨k2, v2⟩ := x
    simp only [List.map_cons, List.nodup_cons] at hnd
    by_cases h : k2 = k
    · subst h
      unfold removeL
      rw [List.filter_cons, if_neg (by simp)]
      have h2 := removeL_eq_self_of_not_mem xs k2 hnd.1
      unfold removeL at h2
      rw [h2]
      simp
    · have h1 : ((k2, v2).1 != k) = true := by
        simp only [bne_iff_ne, ne_eq]
        exact h
      simp only [lookupL, if_neg h] at hm
      have h2 := ih hnd.2 hm
      unfold removeL at h2 ⊢
      rw [List.filter_cons, if_pos h1]
      simp only [List.length_cons]
      omega

theorem num_particles_eq_pids_length (w : World) :
    w.num_particles = (pidsOf w).length := by
  simp [World.num_particles, pidsOf]

theorem map_fst_update {α : Type} (l : List (ℕ × α)) (k : ℕ) (v : α) :
    (l.map (fun pr => if pr.1 = k then (k, v) else pr)).map Prod.fst = l.map Prod.fst := by
  induction l with
  | nil => rfl
  | cons x xs ih =>
    by_cases h : x.1 = k
    · simp [h, ih]
    · simp [h, ih]

theorem pidsOf_update_particle (w : World) (pid : ℕ) (p : Particle) :
    pidsOf (w.update_particle pid p) = pidsOf w := by
  unfold pidsOf World.update_particle
  exact map_fst_update w.particles pid p

theorem sched_top_go_mem (l : List (ℕ × DEvent)) :
    ∀ (acc : Option (ℕ × DEvent)) (x : ℕ × DEvent),
      l.foldl (fun acc e =>
        match acc with
        | none => some e
        | some b =>
          if e.2.time < b.2.time ∨ (e.2.time = b.2.time ∧ e.1 < b.1) then some e
          else some b) acc = some x →
      x ∈ l ∨ acc = some x := by
  induction l with
  | nil =>
    intro acc x h
    right; exact h
  | cons e es ih =>
    intro acc x h
    rw [List.foldl_cons] at h
    rcases ih _ x h with h1 | h1
    · left; exact List.mem_cons_of_mem _ h1
    · match acc, h1 with
      | none, h1 =>
        left
        cases h1
        exact List.mem_cons_self _ _
      | some b, h1 =>
        rw [show (match some b with
          | none => some e
          | some b =>
            if e.2.time < b.2.time ∨ (e.2.time = b.2.time ∧ e.1 < b.1) then some e
            else some b) = if e.2.time < b.2.time ∨ (e.2.time = b.2.time ∧ e.1 < b.1)
              then some e else some b from rfl] at h1
        by_cases hc : e.2.time < b.2.time ∨ (e.2.time = b.2.time ∧ e.1 < b.1)
        · rw [if_pos hc] at h1
          cases h1
          left; exact List.mem_cons_self _ _
        · rw [if_neg hc] at h1
          right; exact h1

theorem sched_top_mem (l : List (ℕ × DEvent)) (x : ℕ × DEvent)
    (h : sched_top l = some x) : x ∈ l := by
  rcases sched_top_go_mem l none x h with h1 | h1
  · exact h1
  · cases h1

/-! Frame preservation through the bursting call chain. -/

theorem burst_keeps_refl (a : Sim) : burst_keeps a a := ⟨rfl, rfl, rfl, rfl⟩

theorem burst_keeps_trans {a b c : Sim} (h1 : burst_keeps a b) (h2 : burst_keeps b c) :
    burst_keeps a c :=
  ⟨h2.1.trans h1.1, h2.2.1.trans h1.2.1, h2.2.2.1.trans h1.2.2.1,
   h2.2.2.2.trans h1.2.2.2⟩

theorem keeps_tr_of_burst {a b : Sim} (h : burst_keeps a b) : keeps_tr a b :=
  ⟨h.1, h.2.1, h.2.2.2⟩

theorem keeps_tr_refl (a : Sim) : keeps_tr a a := ⟨rfl, rfl, rfl⟩

theorem keeps_tr_trans {a b c : Sim} (h1 : keeps_tr a b) (h2 : keeps_tr b c) :
    keeps_tr a c :=
  ⟨h2.1.trans h1.1, h2.2.1.trans h1.2.1, h2.2.2.trans h1.2.2⟩

theorem move_shell_keeps (s : Sim) (pr : ℕ × Shell) : burst_keeps s (move_shell s pr) :=
  ⟨rfl, rfl, rfl, rfl⟩

theorem sync_domain_keeps (s : Sim) (d : Domain) : burst_keeps s (sync_domain s d) := by
  unfold sync_domain
  split
  · exact ⟨rfl, rfl, rfl, rfl⟩
  · exact burst_keeps_refl s

theorem move_single_particle_keeps (s : Sim) (sg : Single) (pos : ℚ) :
    burst_keeps s (move_single_particle s sg pos).1 := by
  unfold move_single_particle
  refine burst_keeps_trans ?_ (sync_domain_keeps _ _)
  exact ⟨rfl, rfl, pidsOf_update_particle _ _ _, rfl⟩

theorem move_single_shell_keeps (s : Sim) (sg : Single) (pos radius : ℚ) :
    burst_keeps s (move_single_shell s sg pos radius).1 := by
  unfold move_single_shell
  refine burst_keeps_trans ?_ (sync_domain_keeps _ _)
  exact move_shell_keeps _ _

theorem move_single_keeps (s : Sim) (sg : Single) (pos radius : ℚ) :
    burst_keeps s (move_single s sg pos radius).1 := by
  unfold move_single
  refine burst_keeps_trans (move_single_shell_keeps s sg pos radius) ?_
  exact move_single_particle_keeps _ _ _

theorem propagate_single_keeps (s : Sim) (sg : Single) (o : Oracle) :
    burst_keeps s (propagate_single s sg o).1 := by
  simp only [propagate_single]
  split
  · exact burst_keeps_refl s
  · split
    · exact move_single_particle_keeps _ _ _
    · exact burst_keeps_trans (sync_domain_keeps s _) (move_single_keeps _ _ _ _)

theorem update_event_keeps (s : Sim) (eid : ℕ) (ev : DEvent) :
    burst_keeps s (update_event s eid ev).1 := by
  unfold update_event
  split
  · exact burst_keeps_refl s
  · exact ⟨rfl, rfl, rfl, rfl⟩

theorem remove_event_keeps (s : Sim) (eid : ℕ) :
    burst_keeps s (remove_event s eid).1 := by
  unfold remove_event
  split
  · exact burst_keeps_refl s
  · exact ⟨rfl, rfl, rfl, rfl⟩

theorem add_single_event_keeps (s : Sim) (sg : Single) :
    burst_keeps s (add_single_event s sg).1 := by
  unfold add_single_event sched_add
  exact burst_keeps_trans ⟨rfl, rfl, rfl, rfl⟩ (sync_domain_keeps _ _)

theorem deleteShells_keeps (l : List (ℕ × Shell)) :
    ∀ s : Sim, burst_keeps s (deleteShells s l).1 := by
  induction l with
  | nil => intro s; exact burst_keeps_refl s
  | cons x xs ih =>
    intro s
    obtain ⟨sid, sh⟩ := x
    unfold deleteShells
    split
    · exact burst_keeps_refl s
    · exact burst_keeps_trans ⟨rfl, rfl, rfl, rfl⟩ (ih _)

theorem remove_domain_keeps (s : Sim) (d : Domain) :
    burst_keeps s (remove_domain s d).1 := by
  unfold remove_domain
  split
  · exact burst_keeps_refl s
  · exact burst_keeps_trans ⟨rfl, rfl, rfl, rfl⟩ (deleteShells_keeps _ _)

theorem burst_single_keeps (s : Sim) (sg : Single) (o : Oracle) :
    burst_keeps s (burst_single s sg o).1 := by
  simp only [burst_single]
  split
  · exact burst_keeps_refl s
  · split
    · exact burst_keeps_refl s
    · have hsync := sync_domain_keeps s
        (.single { sg with dt := s.t - sg.last_time, event_type := .BURST })
      split
      · next s2 e heq =>
        have hp := propagate_single_keeps
          (sync_domain s (.single { sg with dt := s.t - sg.last_time, event_type := .BURST }))
          { sg with dt := s.t - sg.last_time, event_type := .BURST } o
        rw [heq] at hp
        exact burst_keeps_trans hsync hp
      · next s2 ns heq =>
        have hp := propagate_single_keeps
          (sync_domain s (.single { sg with dt := s.t - sg.last_time, event_type := .BURST }))
          { sg with dt := s.t - sg.last_time, event_type := .BURST } o
        rw [heq] at hp
        have base := burst_keeps_trans hsync hp
        split
        · exact base
        · split
          · next s3 e heq2 =>
            have hu := update_event_keeps s2 ns.event_id { time := s2.t, did := ns.domain_id }
            rw [heq2] at hu
            exact burst_keeps_trans base hu
          · next s3 u heq2 =>
            have hu := update_event_keeps s2 ns.event_id { time := s2.t, did := ns.domain_id }
            rw [heq2] at hu
            split
            · exact burst_keeps_trans base hu
            · exact burst_keeps_trans base hu

theorem propagate_pair_finish_keeps (s : Sim) (p : PairD) (np1 np2 : ℚ) :
    burst_keeps s (propagate_pair_finish s p np1 np2).1 := by
  simp only [propagate_pair_finish]
  split
  · next s2 e2 heq2 =>
    have h := remove_domain_keeps s (.pair p)
    rw [heq2] at h
    exact h
  · next s2 u2 heq2 =>
    have h := remove_domain_keeps s (.pair p)
    rw [heq2] at h
    split
    · exact h
    · split
      · exact h
      · repeat' split
        all_goals
          refine burst_keeps_trans h (burst_keeps_trans ?_ (burst_keeps_trans
            (move_single_keeps _ _ _ _) (move_single_keeps _ _ _ _)))
        all_goals exact ⟨rfl, rfl, rfl, rfl⟩

theorem propagate_pair_keeps (s : Sim) (p : PairD) (dt : ℚ) (et : EventType) (o : Oracle) :
    burst_keeps s (propagate_pair s p dt et o).1 := by
  simp only [propagate_pair]
  split
  · exact burst_keeps_refl s
  · exact propagate_pair_finish_keeps _ _ _ _

theorem burst_pair_keeps (s : Sim) (p : PairD) (o : Oracle) :
    burst_keeps s (burst_pair s p o).1 := by
  unfold burst_pair
  split
  · exact burst_keeps_refl s
  · split
    · exact burst_keeps_refl s
    · exact propagate_pair_keeps _ _ _ _ _

theorem create_single_keeps (s : Sim) (pid : ℕ) (p : Particle) :
    burst_keeps s (create_single s pid p).1 := by
  simp only [create_single]
  split
  · exact ⟨rfl, rfl, rfl, rfl⟩
  · exact ⟨rfl, rfl, rfl, rfl⟩

theorem singles_of_particles_keeps (l : List (ℕ × Particle)) :
    ∀ s : Sim, burst_keeps s (singles_of_particles s l).1 := by
  induction l with
  | nil => intro s; exact burst_keeps_refl s
  | cons x xs ih =>
    intro s
    obtain ⟨pid, p⟩ := x
    simp only [singles_of_particles]
    split
    · next s1 e heq =>
      have h := create_single_keeps s pid p
      rw [heq] at h
      exact h
    · next s1 sg heq =>
      have h := create_single_keeps s pid p
      rw [heq] at h
      have h2 := add_single_event_keeps s1 sg
      split
      · next s2 e heq2 =>
        have h3 := ih (add_single_event s1 sg).1
        rw [heq2] at h3
        exact burst_keeps_trans (burst_keeps_trans h h2) h3
      · next s2 lres heq2 =>
        have h3 := ih (add_single_event s1 sg).1
        rw [heq2] at h3
        exact burst_keeps_trans (burst_keeps_trans h h2) h3

theorem break_up_multi_keeps (s : Sim) (m : MultiD) :
    burst_keeps s (break_up_multi s m).1 := by
  unfold break_up_multi
  split
  · next s1 e heq =>
    have h := remove_domain_keeps s (.multi m)
    rw [heq] at h
    exact h
  · next s1 u heq =>
    have h := remove_domain_keeps s (.multi m)
    rw [heq] at h
    exact burst_keeps_trans h (singles_of_particles_keeps _ _)

theorem burst_multi_keeps (s : Sim) (m : MultiD) :
    burst_keeps s (burst_multi s m).1 :=
  break_up_multi_keeps s m

theorem burst_obj_keeps (s : Sim) (d : Domain) (o : Oracle) :
    burst_keeps s (burst_obj s d o).1 := by
  cases d with
  | single sg =>
    simp only [burst_obj]
    split
    · next s1 e heq =>
      have h := burst_single_keeps s sg o
      rw [heq] at h
      exact h
    · next s1 sg1 heq =>
      have h := burst_single_keeps s sg o
      rw [heq] at h
      exact h
  | pair p =>
    simp only [burst_obj]
    split
    · next s1 e heq =>
      have h := burst_pair_keeps s p o
      rw [heq] at h
      exact h
    · next s1 ns1 ns2 heq =>
      have h := burst_pair_keeps s p o
      rw [heq] at h
      have h2 := add_single_event_keeps s1 ns1
      have h3 := add_single_event_keeps (add_single_event s1 ns1).1 ns2
      have base := burst_keeps_trans (burst_keeps_trans h h2) h3
      split
      · next s2 e heq2 =>
        have h4 := remove_event_keeps (add_single_event (add_single_event s1 ns1).1 ns2).1
          p.event_id
        rw [heq2] at h4
        exact burst_keeps_trans base h4
      · next s2 u heq2 =>
        have h4 := remove_event_keeps (add_single_event (add_single_event s1 ns1).1 ns2).1
          p.event_id
        rw [heq2] at h4
        exact burst_keeps_trans base h4
  | multi m =>
    simp only [burst_obj]
    split
    · next s1 e heq =>
      have h := burst_multi_keeps s m
      rw [heq] at h
      exact h
    · next s1 singles heq =>
      have h := burst_multi_keeps s m
      rw [heq] at h
      split
      · next s2 e heq2 =>
        have h2 := remove_event_keeps s1 m.event_id
        rw [heq2] at h2
        exact burst_keeps_trans h h2
      · next s2 u heq2 =>
        have h2 := remove_event_keeps s1 m.event_id
        rw [heq2] at h2
        exact burst_keeps_trans h h2

theorem burst_objs_keeps (l : List Domain) (o : Oracle) :
    ∀ s : Sim, burst_keeps s (burst_objs s l o).1 := by
  induction l with
  | nil => intro s; exact burst_keeps_refl s
  | cons d rest ih =>
    intro s
    simp only [burst_objs]
    split
    · next s1 e heq =>
      have h := burst_obj_keeps s d o
      rw [heq] at h
      exact h
    · next s1 b heq =>
      have h := burst_obj_keeps s d o
      rw [heq] at h
      split
      · next s2 e heq2 =>
        have h2 := ih s1
        rw [heq2] at h2
        exact burst_keeps_trans h h2
      · next s2 bs heq2 =>
        have h2 := ih s1
        rw [heq2] at h2
        exact burst_keeps_trans h h2

theorem clear_volume_keeps (s : Sim) (pos radius : ℚ) (ignore : List ℕ) (o : Oracle) :
    burst_keeps s (clear_volume s pos radius ignore o).1 := by
  unfold clear_volume
  split
  · exact burst_keeps_refl s
  · exact burst_objs_keeps _ _ _

theorem stop_burst_loop_keeps (o : Oracle) (l : List (ℕ × DEvent)) :
    ∀ s : Sim, burst_keeps s (stop_burst_loop s o l).1 := by
  induction l with
  | nil => intro s; exact burst_keeps_refl s
  | cons x rest ih =>
    intro s
    obtain ⟨eid, ev⟩ := x
    simp only [stop_burst_loop]
    split
    · exact burst_keeps_refl s
    · next sg _ =>
      split
      · next s1 e heq =>
        have h := burst_single_keeps s sg o
        rw [heq] at h
        exact h
      · next s1 sg1 heq =>
        have h := burst_single_keeps s sg o
        rw [heq] at h
        exact burst_keeps_trans h (ih s1)
    · next d _ _ =>
      split
      · next s1 e heq =>
        have h := ih s
        rw [heq] at h
        exact h
      · next s1 lres heq =>
        have h := ih s
        rw [heq] at h
        exact h

theorem world_new_particle_keeps_tr (s : Sim) (sp : Species) (pos : ℚ) :
    keeps_tr s (world_new_particle s sp pos).1 :=
  ⟨rfl, rfl, rfl⟩

theorem fire_zero_product_keeps_tr (s : Sim) (sg : Single) (rt : Rule) :
    keeps_tr s (fire_zero_product s sg rt).1 := by
  unfold fire_zero_product
  split
  · exact keeps_tr_refl s
  · exact ⟨rfl, rfl, rfl⟩

theorem fire_one_product_place_keeps_tr (s : Sim) (sg : Single) (rt : Rule) (sp : Species) :
    keeps_tr s (fire_one_product_place s sg rt sp).1 := by
  simp only [fire_one_product_place]
  split
  · exact keeps_tr_refl s
  · split
    · exact keeps_tr_refl s
    · next w heq =>
      have base : keeps_tr s
          (world_new_particle { s with world := w } sp sg.particle.position).1 :=
        keeps_tr_trans
          (show keeps_tr s { s with world := w } from ⟨rfl, rfl, rfl⟩)
          (world_new_particle_keeps_tr { s with world := w } sp sg.particle.position)
      split
      · next s1 e heq2 =>
        have h := create_single_keeps
          (world_new_particle { s with world := w } sp sg.particle.position).1
          ((world_new_particle { s with world := w } sp sg.particle.position).2).1
          ((world_new_particle { s with world := w } sp sg.particle.position).2).2
        rw [heq2] at h
        exact keeps_tr_trans base (keeps_tr_of_burst h)
      · next s1 ns heq2 =>
        have h := create_single_keeps
          (world_new_particle { s with world := w } sp sg.particle.position).1
          ((world_new_particle { s with world := w } sp sg.particle.position).2).1
          ((world_new_particle { s with world := w } sp sg.particle.position).2).2
        rw [heq2] at h
        refine keeps_tr_trans (keeps_tr_trans base (keeps_tr_of_burst h)) ?_
        exact keeps_tr_trans (keeps_tr_of_burst (add_single_event_keeps s1 ns)) ⟨rfl, rfl, rfl⟩

theorem fire_one_product_keeps_tr (s : Sim) (sg : Single) (rt : Rule) (sid : ℕ)
    (o : Oracle) : keeps_tr s (fire_one_product s sg rt sid o).1 := by
  simp only [fire_one_product]
  split
  · exact keeps_tr_refl s
  · next sp _ =>
    split
    · split
      · next s1 e heq =>
        have h := clear_volume_keeps s sg.particle.position sp.radius [] o
        rw [heq] at h
        exact keeps_tr_of_burst h
      · next s1 b heq =>
        have h := clear_volume_keeps s sg.particle.position sp.radius [] o
        rw [heq] at h
        exact keeps_tr_trans (keeps_tr_of_burst h) (fire_one_product_place_keeps_tr _ _ _ _)
    · exact fire_one_product_place_keeps_tr _ _ _ _

theorem fire_two_product_place_keeps_tr (s : Sim) (sg : Single) (rt : Rule)
    (sp1 sp2 : Species) (np1 np2 : ℚ) :
    keeps_tr s (fire_two_product_place s sg rt sp1 sp2 np1 np2).1 := by
  simp only [fire_two_product_place]
  split
  · exact keeps_tr_refl s
  · next w heq =>
    have base : keeps_tr s
        (world_new_particle (world_new_particle { s with world := w } sp1 np1).1 sp2 np2).1 :=
      keeps_tr_trans
        (keeps_tr_trans (show keeps_tr s { s with world := w } from ⟨rfl, rfl, rfl⟩)
          (world_new_particle_keeps_tr { s with world := w } sp1 np1))
        (world_new_particle_keeps_tr (world_new_particle { s with world := w } sp1 np1).1
          sp2 np2)
    split
    · next s1 e heq2 =>
      have h := create_single_keeps
        (world_new_particle (world_new_particle { s with world := w } sp1 np1).1 sp2 np2).1
        (((world_new_particle { s with world := w } sp1 np1).2).1)
        (((world_new_particle { s with world := w } sp1 np1).2).2)
      rw [heq2] at h
      exact keeps_tr_trans base (keeps_tr_of_burst h)
    · next s1 ns1 heq2 =>
      have h := create_single_keeps
        (world_new_particle (world_new_particle { s with world := w } sp1 np1).1 sp2 np2).1
        (((world_new_particle { s with world := w } sp1 np1).2).1)
        (((world_new_particle { s with world := w } sp1 np1).2).2)
      rw [heq2] at h
      have base2 := keeps_tr_trans base (keeps_tr_of_burst h)
      split
      · next s2 e heq3 =>
        have h2 := create_single_keeps s1
          (((world_new_particle (world_new_particle { s with world := w } sp1 np1).1
              sp2 np2).2).1)
          (((world_new_particle (world_new_particle { s with world := w } sp1 np1).1
              sp2 np2).2).2)
        rw [heq3] at h2
        exact keeps_tr_trans base2 (keeps_tr_of_burst h2)
      · next s2 ns2 heq3 =>
        have h2 := create_single_keeps s1
          (((world_new_particle (world_new_particle { s with world := w } sp1 np1).1
              sp2 np2).2).1)
          (((world_new_particle (world_new_particle { s with world := w } sp1 np1).1
              sp2 np2).2).2)
        rw [heq3] at h2
        refine keeps_tr_trans (keeps_tr_trans base2 (keeps_tr_of_burst h2)) ?_
        refine keeps_tr_trans (keeps_tr_of_burst (add_single_event_keeps s2 ns1)) ?_
        exact keeps_tr_trans
          (keeps_tr_of_burst (add_single_event_keeps (add_single_event s2 ns1).1 ns2))
          ⟨rfl, rfl, rfl⟩

theorem fire_two_product_keeps_tr (s : Sim) (sg : Single) (rt : Rule) (sid1 sid2 : ℕ)
    (o : Oracle) : keeps_tr s (fire_two_product s sg rt sid1 sid2 o).1 := by
  simp only [fire_two_product]
  split
  · exact keeps_tr_refl s
  · exact keeps_tr_refl s
  · next sp1 sp2 _ _ =>
    split
    · exact keeps_tr_refl s
    · split
      · next s1 e heq =>
        have h := clear_volume_keeps s sg.particle.position
          (max ((sp1.radius + sp2.radius) * (sp1.D / (sp1.D + sp2.D)) + sp1.radius)
               ((sp1.radius + sp2.radius) * (sp2.D / (sp1.D + sp2.D)) + sp2.radius)) [] o
        rw [heq] at h
        exact keeps_tr_of_burst h
      · next s1 b heq =>
        have h := clear_volume_keeps s sg.particle.position
          (max ((sp1.radius + sp2.radius) * (sp1.D / (sp1.D + sp2.D)) + sp1.radius)
               ((sp1.radius + sp2.radius) * (sp2.D / (sp1.D + sp2.D)) + sp2.radius)) [] o
        rw [heq] at h
        split
        · exact keeps_tr_of_burst h
        · exact keeps_tr_trans (keeps_tr_of_burst h)
            (fire_two_product_place_keeps_tr _ _ _ _ _ _ _)

theorem fire_single_reaction_keeps_tr (s : Sim) (sg : Single) (o : Oracle) :
    keeps_tr s (fire_single_reaction s sg o).1 := by
  simp only [fire_single_reaction]
  have hbr : keeps_tr s
      (match (o.drawRule sg).products with
       | [] => fire_zero_product s sg (o.drawRule sg)
       | [p1] => fire_one_product s sg (o.drawRule sg) p1 o
       | [p1, p2] => fire_two_product s sg (o.drawRule sg) p1 p2 o
       | _ => (s, .error .runtimeError)).1 := by
    split
    · exact fire_zero_product_keeps_tr _ _ _
    · exact fire_one_product_keeps_tr _ _ _ _ _
    · exact fire_two_product_keeps_tr _ _ _ _ _ _
    · exact keeps_tr_refl s
  split
  · next s1 e heq =>
    rw [heq] at hbr
    exact hbr
  · next s1 u heq =>
    rw [heq] at hbr
    exact keeps_tr_trans hbr ⟨rfl, rfl, rfl⟩

/-! Claim theorems. -/

/-- C9: when the event-stoichiometry check finds the summed domain
multiplicities differing from the world's particle count, the run halts -
but with a `NameError` (the raise statement formats the undefined name
`population`), not with the intended `RuntimeError` reporting the
particle and event populations.  Evaluated at a world of one particle and
an empty scheduler. -/
theorem check_event_stoichiometry_raises_nameError :
    simC9.world.num_particles = 1 ∧
    check_event_stoichiometry simC9 = (simC9, .error .nameError) :=
  ⟨rfl, rfl⟩

/-- C2 counterexample: a `stop(t)` call with `t` equal to the current
time and at-or-after the next scheduled event time (both are 5) returns
silently instead of raising: the `self.t == t` early return precedes the
precondition checks. -/
theorem stop_counterexample_C2 :
    sched_top simC2.scheduler = some (0, { time := 5, did := 0 }) ∧
    simC2.t = 5 ∧ (5 : ℚ) ≥ 5 ∧
    stop simC2 5 baseOracle = (simC2, .ok ()) :=
  ⟨rfl, rfl, le_refl 5, rfl⟩

/-- C2 (amended): for every `stop(t)` call with `t` different from the
current time, if `t` is at or after the next scheduled event time or
strictly before the current time, `stop` raises `RuntimeError` and
leaves the simulator state unchanged. -/
theorem stop_raises_on_bad_time (s : Sim) (t : ℚ) (o : Oracle) (eid : ℕ) (ev : DEvent)
    (hne : t ≠ s.t) (htop : sched_top s.scheduler = some (eid, ev))
    (hbad : t ≥ ev.time ∨ t < s.t) :
    stop s t o = (s, .error .runtimeError) := by
  unfold stop
  split
  · next h => exact absurd h.symm hne
  · split
    · next heq =>
      rw [htop] at heq
    · next eid2 ev2 heq =>
      rw [htop] at heq
      injection heq with heq2
      injection heq2 with h1 h2
      subst h2
      split
      · rfl
      · next hc1 =>
        split
        · rfl
        · next hc2 =>
          rcases hbad with h | h
          · exact absurd h hc1
          · exact absurd h hc2

/-- C2 witness: a concrete bad `stop` call raising `RuntimeError`. -/
theorem stop_raises_on_bad_time_witness :
    stop simC2b 7 baseOracle = (simC2b, .error .runtimeError) :=
  stop_raises_on_bad_time simC2b 7 baseOracle 0 { time := 5, did := 0 }
    (by norm_num [simC2b, baseSim]) rfl (Or.inl (by norm_num))

/-- C7: pair formation rejects (returns no pair, state unchanged)
whenever the minimum required shell size with its safety margin added is
at least the maximum allowed size, the maximum being the smaller of the
global maximum shell size and the gap-scaled cap
`distance_from_sigma * 100 + sigma + margin`. -/
theorem form_pair_rejects_min_exceeds_max (s : Sim) (sg1 : Single) (pos1 : ℚ)
    (sg2 : Single) (burst : List Domain) (o : Oracle)
    (h1 : is_reset sg1) (h2 : is_reset sg2) (hpos : pos1 = sg1.shell.position)
    (hsig : (form_pair_sizes s sg1 pos1 sg2).distance_from_sigma ≥ 0)
    (hcond : (form_pair_sizes s sg1 pos1 sg2).min_shell_size_with_margin ≥
             form_pair_max_shell_size s (form_pair_sizes s sg1 pos1 sg2)) :
    form_pair s sg1 pos1 sg2 burst o = (s, .ok none) := by
  simp only [form_pair]
  rw [if_neg (not_not_intro h1), if_neg (not_not_intro h2), if_neg (not_not_intro hpos),
      if_neg (not_not_intro hsig), if_pos hcond]

/-- C7 witness: two concrete reset singles in a tiny world are rejected
at the size test. -/
theorem form_pair_rejects_min_exceeds_max_witness :
    form_pair simC7 sgC7a 0 sgC7b [] baseOracle = (simC7, .ok none) :=
  form_pair_rejects_min_exceeds_max simC7 sgC7a 0 sgC7b [] baseOracle
    (by refine ⟨rfl, rfl, rfl⟩) (by refine ⟨rfl, rfl, rfl⟩) rfl
    (by norm_num [form_pair_sizes, simC7, sgC7a, sgC7b, baseSim, baseWorld, wdist,
      partA, partC7b, shellA, shellC7b])
    (by norm_num [form_pair_sizes, form_pair_max_shell_size, Sim.get_max_shell_size,
      Sim.get_matrix_cell_size, SAFETY, simC7, sgC7a, sgC7b, baseSim, baseWorld, wdist,
      partA, partC7b, shellA, shellC7b])

theorem propagate_single_t (s : Sim) (sg : Single) (o : Oracle) (s1 : Sim)
    (r : Except Err Single) (h : propagate_single s sg o = (s1, r)) : s1.t = s.t := by
  have hk := propagate_single_keeps s sg o
  rw [h] at hk
  exact hk.1

theorem update_event_ok_eq (s : Sim) (eid : ℕ) (ev : DEvent) (s2 : Sim) (u : Unit)
    (h : update_event s eid ev = (s2, .ok u)) :
    s2 = { s with scheduler := upsertL s.scheduler eid ev } := by
  unfold update_event at h
  split at h
  · injection h with h1 h2
    exact Except.noConfusion h2
  · injection h with h1 h2
    exact h1.symm

/-- C10: a successful `burst_single` at a time inside the single's
protective interval returns a reset single - dimensionless shell (radius
equal to the particle radius), new particle position within the old
shell (displacement from the old shell center at most the old shell size
minus the particle radius), and the single's scheduler event re-keyed to
fire at the current (unchanged) simulation time. -/
theorem burst_single_resets (s : Sim) (sg : Single) (o : Oracle) (s2 : Sim) (sg2 : Single)
    (h : burst_single s sg o = (s2, .ok sg2)) :
    is_reset sg2 ∧
    sg2.shell.radius = sg2.particle.radius ∧
    s2.world.distance sg2.particle.position sg.shell.position ≤
      sg.shell.radius - sg.particle.radius ∧
    lookupL s2.scheduler sg2.event_id = some { time := s2.t, did := sg2.domain_id } ∧
    s2.t = s.t ∧ sg.last_time ≤ s.t ∧ s.t ≤ sg.last_time + sg.dt := by
  simp only [burst_single] at h
  split at h
  · injection h with h1 h2
    exact Except.noConfusion h2
  · split at h
    · injection h with h1 h2
      exact Except.noConfusion h2
    · next hpre1 hpre2 =>
      split at h
      · next s1 e heqp =>
        injection h with h1 h2
        exact Except.noConfusion h2
      · next s1 ns heqp =>
        split at h
        · injection h with h1 h2
          exact Except.noConfusion h2
        · next hdist =>
          split at h
          · next s3 e hequ =>
            injection h with h1 h2
            exact Except.noConfusion h2
          · next s3 u hequ =>
            split at h
            · next hrad =>
              injection h with h1 h2
              injection h2 with h2
              subst h1
              subst h2
              -- time bookkeeping from the frame lemmas
              have hts : s1.t = s.t :=
                (propagate_single_t _ _ _ _ _ heqp).trans (sync_domain_keeps s _).1
              have hsch := update_event_ok_eq s1 ns.event_id
                { time := s1.t, did := ns.domain_id } s3 u hequ
              -- structure of the propagated single
              simp only [propagate_single] at heqp
              split at heqp
              · injection heqp with h1 h2
                exact Except.noConfusion h2
              · split at heqp
                · next hcond =>
                  exact absurd hcond.1 (by simp)
                · injection heqp with h1 h2
                  injection h2 with h2
                  refine ⟨?_, ?_, ?_, ?_, ?_, not_not.mp hpre1, not_not.mp hpre2⟩
                  · rw [← h2]
                    exact ⟨rfl, rfl, rfl⟩
                  · rw [← h2]
                    exact rfl
                  · have hd := not_not.mp hdist
                    rw [hsch]
                    exact hd
                  · rw [hsch]
                    exact lookupL_upsert_self s1.scheduler ns.event_id
                      { time := s1.t, did := ns.domain_id }
                  · rw [hsch]
                    exact hts
            · injection h with h1 h2
              exact Except.noConfusion h2

/-- C10 witness: a concrete mid-interval burst. -/
theorem burst_single_resets_witness :
    is_reset sg2C10 ∧
    sg2C10.shell.radius = sg2C10.particle.radius ∧
    s2C10.world.distance sg2C10.particle.position sgC10.shell.position ≤
      sgC10.shell.radius - sgC10.particle.radius ∧
    lookupL s2C10.scheduler sg2C10.event_id =
      some { time := s2C10.t, did := sg2C10.domain_id } ∧
    s2C10.t = simC10.t ∧ sgC10.last_time ≤ simC10.t ∧
    simC10.t ≤ sgC10.last_time + sgC10.dt :=
  burst_single_resets simC10 sgC10 baseOracle s2C10 sg2C10 (by
    norm_num [burst_single, propagate_single, sync_domain, move_single, move_single_shell,
      move_single_particle, move_shell, init_single, update_event, upsertL, lookupL,
      World.check_overlap, World.update_particle, Domain.did, Domain.shell_list,
      Domain.event_id, s2C10, sg2C10, okOr, simC10, sgC10, simC6, sgC6, baseSim,
      baseWorld, baseOracle, wdist, partA, spA, shellWide, List.any])

/-- C6: after a successful `stop(t)`, calling `stop(t)` again with the
same `t` is a no-op - it returns silently through the `self.t == t`
early-return and the state is exactly the state the first call left
behind. -/
theorem stop_second_call_noop (s : Sim) (t : ℚ) (o : Oracle) (s2 : Sim)
    (h : stop s t o = (s2, .ok ())) : stop s2 t o = (s2, .ok ()) := by
  suffices hts : s2.t = t by
    unfold stop
    rw [if_pos hts]
  simp only [stop] at h
  split at h
  · next hst =>
    injection h with h1 h2
    rw [← h1]
    exact hst
  · split at h
    · injection h with h1 h2
      exact Except.noConfusion h2
    · split at h
      · injection h with h1 h2
        exact Except.noConfusion h2
      · split at h
        · injection h with h1 h2
          exact Except.noConfusion h2
        · split at h
          · injection h with h1 h2
            exact Except.noConfusion h2
          · next s1 nsl heq1 =>
            split at h
            · injection h with h1 h2
              exact Except.noConfusion h2
            · next s3 bs heq2 =>
              injection h with h1 h2
              have k1 := stop_burst_loop_keeps o ({ s with t := t }).scheduler { s with t := t }
              rw [heq1] at k1
              have k2 := burst_objs_keeps nsl o s1
              rw [heq2] at k2
              rw [← h1]
              exact k2.1.trans k1.1

theorem sync_domain_world (s : Sim) (d : Domain) : (sync_domain s d).world = s.world := by
  unfold sync_domain; split <;> rfl

theorem sync_domain_shells (s : Sim) (d : Domain) : (sync_domain s d).shells = s.shells := by
  unfold sync_domain; split <;> rfl

theorem sync_domain_t (s : Sim) (d : Domain) : (sync_domain s d).t = s.t := by
  unfold sync_domain; split <;> rfl

theorem sync_domain_scheduler (s : Sim) (d : Domain) :
    (sync_domain s d).scheduler = s.scheduler := by
  unfold sync_domain; split <;> rfl

theorem sync_domain_next_event_id (s : Sim) (d : Domain) :
    (sync_domain s d).next_event_id = s.next_event_id := by
  unfold sync_domain; split <;> rfl

/-- C8 counterexample: an immobile single (`D = 0`) whose popped event is
a zero-product `SINGLE_REACTION` takes the reaction branch, not the
immobile shortcut - `fire_single` succeeds but the particle is removed
from the world, its domain is gone and no new event is scheduled,
contradicting the claim's conclusion for zero-`D` singles of every event
type. -/
theorem fire_single_counterexample_C8 :
    sgC8x.particle.D = 0 ∧
    (fire_single simC8x sgC8x baseOracle).2 = .ok () ∧
    (fire_single simC8x sgC8x baseOracle).1.world.particles = [] ∧
    (fire_single simC8x sgC8x baseOracle).1.scheduler = [] ∧
    lookupL (fire_single simC8x sgC8x baseOracle).1.domains sgC8x.domain_id = none := by
  refine ⟨rfl, ?_, ?_, ?_, ?_⟩ <;>
    norm_num [fire_single, propagate_single, move_single_particle, move_single,
      move_single_shell, move_shell, sync_domain, remove_domain, deleteShells, removeL,
      Domain.shell_list, Domain.did, fire_single_reaction, fire_zero_product,
      World.remove_particle, World.update_particle, World.check_overlap, lookupL, upsertL,
      init_single, List.any, List.filter, ASSERT_DT_TOL, simC8x, sgC8x, partZ, spZ, ruleNone,
      baseSim, baseWorld, baseOracle, wdist, shellA,
      show (EventType.SINGLE_REACTION = EventType.BURST) = False by simp]

/-- C8 (amended to escape events): when `fire_single` handles a Single
whose particle has zero diffusion coefficient and whose popped event is a
`SINGLE_ESCAPE`, nothing in the world moves - world, shell container and
clock are unchanged; the single gets a new `(dt, event_type)` from
`determine_next_event`, its `last_time` stamped to the current time, and
exactly one new scheduler event at `t + dt`. -/
theorem fire_single_immobile (s : Sim) (sg : Single) (o : Oracle)
    (hguard : |sg.dt + sg.last_time - s.t| ≤ ASSERT_DT_TOL * s.t)
    (het : sg.event_type = .SINGLE_ESCAPE)
    (hD : sg.particle.D = 0)
    (hdom : (lookupL s.domains sg.domain_id).isSome) :
    ∃ s2 : Sim, fire_single s sg o = (s2, .ok ()) ∧
      s2.world = s.world ∧
      s2.shells = s.shells ∧
      s2.t = s.t ∧
      s2.scheduler = s.scheduler ++
        [(s.next_event_id, { time := s.t + (o.nextEvent sg).1, did := sg.domain_id })] ∧
      lookupL s2.domains sg.domain_id = some (.single
        { sg with dt := (o.nextEvent sg).1, event_type := (o.nextEvent sg).2,
                  last_time := s.t, event_id := s.next_event_id }) := by
  have hne : ¬ sg.event_type = .SINGLE_REACTION := by
    rw [het]; exact fun hc => EventType.noConfusion hc
  have hniv : ¬ sg.event_type = .IV_EVENT := by
    rw [het]; exact fun hc => EventType.noConfusion hc
  have heq : fire_single s sg o =
      ((add_single_event
          (sync_domain { s with single_steps_escape := s.single_steps_escape + 1 }
            (.single { sg with dt := (o.nextEvent sg).1, event_type := (o.nextEvent sg).2,
                               last_time := s.t }))
          { sg with dt := (o.nextEvent sg).1, event_type := (o.nextEvent sg).2,
                    last_time := s.t }).1, .ok ()) := by
    simp only [fire_single]
    rw [if_neg (not_not_intro hguard), if_neg hne]
    simp only [fire_single_nonreaction]
    rw [if_neg hniv, het]
    simp only [bump_single_steps]
    rw [if_pos hD]
  refine ⟨_, heq, ?_, ?_, ?_, ?_, ?_⟩
  · simp only [add_single_event, sched_add, sync_domain_world]
  · simp only [add_single_event, sched_add, sync_domain_shells]
  · simp only [add_single_event, sched_add, sync_domain_t]
  · simp only [add_single_event, sched_add, sync_domain_scheduler, sync_domain_t,
      sync_domain_next_event_id]
  · have h1 : (lookupL s.domains sg.domain_id).isSome = true := hdom
    simp only [add_single_event, sched_add, sync_domain, Domain.did]
    rw [if_pos h1]
    simp only []
    rw [if_pos (show (lookupL (upsertL s.domains sg.domain_id
      (Domain.single { sg with dt := (o.nextEvent sg).1, event_type := (o.nextEvent sg).2,
                                last_time := s.t })) sg.domain_id).isSome = true by
      rw [lookupL_upsert_self]; rfl)]
    simp only []
    rw [lookupL_upsert_self]

/-- C8 witness: a concrete immobile single firing an escape. -/
theorem fire_single_immobile_witness :
    ∃ s2 : Sim, fire_single simC8 sgC8 baseOracle = (s2, .ok ()) ∧
      s2.world = simC8.world ∧
      s2.shells = simC8.shells ∧
      s2.t = simC8.t ∧
      s2.scheduler = simC8.scheduler ++
        [(simC8.next_event_id,
          { time := simC8.t + (baseOracle.nextEvent sgC8).1, did := sgC8.domain_id })] ∧
      lookupL s2.domains sgC8.domain_id = some (.single
        { sgC8 with dt := (baseOracle.nextEvent sgC8).1,
                    event_type := (baseOracle.nextEvent sgC8).2,
                    last_time := simC8.t, event_id := simC8.next_event_id }) :=
  fire_single_immobile simC8 sgC8 baseOracle
    (by norm_num [sgC8, simC8, baseSim, ASSERT_DT_TOL, partZ, shellA, ruleNone, baseWorld])
    rfl rfl rfl

/-- C6 witness: a concrete successful stop, then the same stop again. -/
theorem stop_second_call_noop_witness : stop s2C6 5 baseOracle = (s2C6, .ok ()) :=
  stop_second_call_noop simC6 5 baseOracle s2C6 (by
    norm_num [stop, stop_burst_loop, burst_objs, sched_top, List.foldl,
      burst_single, propagate_single, sync_domain, move_single, move_single_shell,
      move_single_particle, move_shell, init_single, update_event, upsertL, lookupL,
      World.check_overlap, World.update_particle, Domain.did, Domain.shell_list,
      Domain.event_id, s2C6, okOr, simC6, sgC6, baseSim,
      baseWorld, baseOracle, wdist, partA, spA, shellWide, List.any])

theorem sync_domain_rejected (s : Sim) (d : Domain) :
    (sync_domain s d).rejected_moves = s.rejected_moves := by
  unfold sync_domain; split <;> rfl

theorem reject_single_reaction_rejected (s : Sim) (sg : Single) :
    (reject_single_reaction s sg).rejected_moves = s.rejected_moves + 1 := by
  simp only [reject_single_reaction, move_shell, add_single_event, sched_add,
    sync_domain_rejected]

/-- C1: when a Single reaction fires and placing the product raises
`NoSpace`, `fire_single` catches it and still returns success (the
condition never propagates out); the state is the rejection state -
rejected-moves counter bumped by exactly one over the pre-firing value,
the pre-reaction shell restored in the container, the domain table
holding the re-initialized single, and the single rescheduled at the
current time. -/
theorem fire_single_noSpace_rejected (s : Sim) (sg : Single) (o : Oracle)
    (s1 s2 s3 : Sim) (sg1 : Single)
    (hguard : |sg.dt + sg.last_time - s.t| ≤ ASSERT_DT_TOL * s.t)
    (het : sg.event_type = .SINGLE_REACTION)
    (hprop : propagate_single { s with single_steps_reaction := s.single_steps_reaction + 1 }
      sg o = (s1, .ok sg1))
    (hrd : remove_domain s1 (.single sg1) = (s2, .ok ()))
    (hfsr : fire_single_reaction s2 sg1 o = (s3, .error .noSpace)) :
    fire_single s sg o = (reject_single_reaction s3 sg1, .ok ()) ∧
    (reject_single_reaction s3 sg1).rejected_moves = s.rejected_moves + 1 ∧
    lookupL (reject_single_reaction s3 sg1).shells sg1.shell_id = some sg1.shell ∧
    lookupL (reject_single_reaction s3 sg1).domains sg1.domain_id =
      some (.single { init_single sg1 s3.t with event_id := s3.next_event_id }) ∧
    (reject_single_reaction s3 sg1).scheduler =
      s3.scheduler ++ [(s3.next_event_id, { time := s3.t, did := sg1.domain_id })] := by
  refine ⟨?_, ?_, ?_, ?_, ?_⟩
  · simp only [fire_single]
    rw [if_neg (not_not_intro hguard), if_pos het, hprop]
    simp only []
    rw [hrd]
    simp only []
    rw [hfsr]
  · rw [reject_single_reaction_rejected]
    have k1 := propagate_single_keeps
      { s with single_steps_reaction := s.single_steps_reaction + 1 } sg o
    rw [hprop] at k1
    have k2 := remove_domain_keeps s1 (.single sg1)
    rw [hrd] at k2
    have k3 := fire_single_reaction_keeps_tr s2 sg1 o
    rw [hfsr] at k3
    have hr : s3.rejected_moves = s.rejected_moves := k3.2.1.trans (k2.2.1.trans k1.2.1)
    rw [hr]
  · simp only [reject_single_reaction, move_shell, add_single_event, sched_add,
      sync_domain_shells, lookupL_upsert_self]
  · have hc1 : (lookupL (upsertL s3.domains sg1.domain_id (Domain.single sg1))
        sg1.domain_id).isSome = true := by rw [lookupL_upsert_self]; rfl
    simp only [reject_single_reaction, move_shell, add_single_event, sched_add,
      sync_domain, Domain.did, init_single]
    rw [if_pos hc1]
    simp only []
    rw [if_pos (show (lookupL (upsertL (upsertL s3.domains sg1.domain_id
        (Domain.single sg1)) sg1.domain_id
        (Domain.single
          { sg1 with dt := 0, event_type := .SINGLE_ESCAPE, last_time := s3.t }))
        sg1.domain_id).isSome = true by
      rw [lookupL_upsert_self]; rfl)]
    simp only []
    rw [lookupL_upsert_self]
  · simp only [reject_single_reaction, move_shell, add_single_event, sched_add,
      sync_domain_scheduler, sync_domain_t, sync_domain_next_event_id, init_single, add_zero]

/-- C1 witness: a concrete reaction whose enlarged product overlaps a
neighbor. -/
theorem fire_single_noSpace_rejected_witness :
    fire_single simC1 sgC1 baseOracle = (reject_single_reaction s3C1 sg1C1, .ok ()) ∧
    (reject_single_reaction s3C1 sg1C1).rejected_moves = simC1.rejected_moves + 1 ∧
    lookupL (reject_single_reaction s3C1 sg1C1).shells sg1C1.shell_id = some sg1C1.shell ∧
    lookupL (reject_single_reaction s3C1 sg1C1).domains sg1C1.domain_id =
      some (.single { init_single sg1C1 s3C1.t with event_id := s3C1.next_event_id }) ∧
    (reject_single_reaction s3C1 sg1C1).scheduler =
      s3C1.scheduler ++ [(s3C1.next_event_id, { time := s3C1.t, did := sg1C1.domain_id })] :=
  fire_single_noSpace_rejected simC1 sgC1 baseOracle s1C1 s2C1 s3C1 sg1C1
    (by norm_num [sgC1, simC1, baseSim, ASSERT_DT_TOL])
    rfl
    (by norm_num [propagate_single, move_single_particle, move_single, move_single_shell,
      move_shell, sync_domain, init_single, World.check_overlap, World.update_particle,
      World.remove_particle, World.get_species, remove_domain, deleteShells, removeL,
      Domain.shell_list, Domain.did, fire_single_reaction, fire_one_product,
      fire_one_product_place, clear_volume, get_neighbors_within_radius_no_sort,
      domains_of_dids, uniqNat, shell_surface_distance, burst_objs, lookupL, upsertL,
      List.any, List.filter, List.find?, s1C1, sg1C1, s2C1, s3C1, okOr, simC1, sgC1,
      partA, partB, spA, spBig, ruleToBig, baseSim, baseWorld, baseOracle, wdist, shellA,
      show (EventType.SINGLE_REACTION = EventType.BURST) = False by simp])
    (by norm_num [propagate_single, move_single_particle, move_single, move_single_shell,
      move_shell, sync_domain, init_single, World.check_overlap, World.update_particle,
      World.remove_particle, World.get_species, remove_domain, deleteShells, removeL,
      Domain.shell_list, Domain.did, fire_single_reaction, fire_one_product,
      fire_one_product_place, clear_volume, get_neighbors_within_radius_no_sort,
      domains_of_dids, uniqNat, shell_surface_distance, burst_objs, lookupL, upsertL,
      List.any, List.filter, List.find?, s1C1, sg1C1, s2C1, s3C1, okOr, simC1, sgC1,
      partA, partB, spA, spBig, ruleToBig, baseSim, baseWorld, baseOracle, wdist, shellA,
      show (EventType.SINGLE_REACTION = EventType.BURST) = False by simp])
    (by norm_num [propagate_single, move_single_particle, move_single, move_single_shell,
      move_shell, sync_domain, init_single, World.check_overlap, World.update_particle,
      World.remove_particle, World.get_species, remove_domain, deleteShells, removeL,
      Domain.shell_list, Domain.did, fire_single_reaction, fire_one_product,
      fire_one_product_place, clear_volume, get_neighbors_within_radius_no_sort,
      domains_of_dids, uniqNat, shell_surface_distance, burst_objs, lookupL, upsertL,
      List.any, List.filter, List.find?, s1C1, sg1C1, s2C1, s3C1, okOr, simC1, sgC1,
      partA, partB, spA, spBig, ruleToBig, baseSim, baseWorld, baseOracle, wdist, shellA,
      show (EventType.SINGLE_REACTION = EventType.BURST) = False by simp])


theorem dissociation_loop_all_rejected (w : World) (pid : ℕ) (o : Oracle)
    (oldpos D1 D2 D12 r1 r2 r12 : ℚ) :
    ∀ n i,
      (∀ j, j < n → attempt_rejected w pid o oldpos D1 D2 D12 r1 r2 r12 (i + j) = true) →
      dissociation_loop w pid o oldpos D1 D2 D12 r1 r2 r12 i n = (n, .error .noSpace) := by
  intro n
  induction n with
  | zero => intro i _; rfl
  | succ m ih =>
    intro i hrej
    have h0 := hrej 0 (Nat.succ_pos m)
    rw [Nat.add_zero] at h0
    unfold attempt_rejected at h0
    simp only [dissociation_loop]
    split
    · next heq =>
      rw [heq] at h0
      simp at h0
    · next p1 p2 heq =>
      rw [heq] at h0
      simp only [] at h0
      split
      · next hcond =>
        rw [hcond] at h0
        simp at h0
      · have harg : ∀ j, j < m →
            attempt_rejected w pid o oldpos D1 D2 D12 r1 r2 r12 (i + 1 + j) = true := by
          intro j hj
          have h := hrej (j + 1) (Nat.succ_lt_succ hj)
          rwa [show i + (j + 1) = i + 1 + j by omega] at h
        rw [ih (i + 1) harg]

/-- C5: a two-product dissociation whose every placement attempt finds
an overlap makes exactly `dissociation_retry_moves` attempts, raises
`NoSpace` out of `fire_single_reaction`, and leaves the particle census
(and so the particle count) unchanged; with zero configured retries the
loop body never runs and `NoSpace` is raised identically. -/
theorem fire_two_product_nospace (s s1 : Sim) (sg : Single) (o : Oracle)
    (sid1 sid2 : ℕ) (sp1 sp2 : Species) (bl : List Domain)
    (hprod : (o.drawRule sg).products = [sid1, sid2])
    (hsp1 : s.world.get_species sid1 = some sp1)
    (hsp2 : s.world.get_species sid2 = some sp2)
    (hD : ¬ (sp1.D + sp2.D = 0))
    (hcv : clear_volume s sg.particle.position
        (max ((sp1.radius + sp2.radius) * (sp1.D / (sp1.D + sp2.D)) + sp1.radius)
             ((sp1.radius + sp2.radius) * (sp2.D / (sp1.D + sp2.D)) + sp2.radius)) [] o
      = (s1, .ok bl))
    (hrej : ∀ j, j < s1.dissociation_retry_moves →
      attempt_rejected s1.world sg.pid o sg.particle.position sp1.D sp2.D (sp1.D + sp2.D)
        sp1.radius sp2.radius (sp1.radius + sp2.radius) j = true) :
    fire_single_reaction s sg o = (s1, .error .noSpace) ∧
    (dissociation_loop s1.world sg.pid o sg.particle.position sp1.D sp2.D (sp1.D + sp2.D)
        sp1.radius sp2.radius (sp1.radius + sp2.radius) 0 s1.dissociation_retry_moves).1
      = s1.dissociation_retry_moves ∧
    pidsOf s1.world = pidsOf s.world ∧
    s1.world.num_particles = s.world.num_particles := by
  have hloop := dissociation_loop_all_rejected s1.world sg.pid o sg.particle.position
    sp1.D sp2.D (sp1.D + sp2.D) sp1.radius sp2.radius (sp1.radius + sp2.radius)
    s1.dissociation_retry_moves 0
    (fun j hj => by rw [Nat.zero_add]; exact hrej j hj)
  have hk := clear_volume_keeps s sg.particle.position
    (max ((sp1.radius + sp2.radius) * (sp1.D / (sp1.D + sp2.D)) + sp1.radius)
         ((sp1.radius + sp2.radius) * (sp2.D / (sp1.D + sp2.D)) + sp2.radius)) [] o
  rw [hcv] at hk
  refine ⟨?_, ?_, hk.2.2.1, ?_⟩
  · simp only [fire_single_reaction]
    rw [hprod]
    simp only [fire_two_product]
    rw [hsp1, hsp2]
    simp only []
    rw [if_neg hD, hcv]
    simp only []
    rw [hloop]
  · rw [hloop]
  · rw [num_particles_eq_pids_length, num_particles_eq_pids_length, hk.2.2.1]


set_option maxRecDepth 8000 in
set_option maxHeartbeats 1000000 in
/-- C5 witness: a blocked dissociation with two configured retries. -/
theorem fire_two_product_nospace_witness :
    fire_single_reaction simC5 sgC5 baseOracle = (simC5, .error .noSpace) ∧
    (dissociation_loop simC5.world sgC5.pid baseOracle sgC5.particle.position spA.D spA.D
        (spA.D + spA.D) spA.radius spA.radius (spA.radius + spA.radius) 0
        simC5.dissociation_retry_moves).1 = simC5.dissociation_retry_moves ∧
    pidsOf simC5.world = pidsOf simC5.world ∧
    simC5.world.num_particles = simC5.world.num_particles :=
  fire_two_product_nospace simC5 simC5 sgC5 baseOracle 0 0 spA spA []
    rfl rfl rfl
    (by norm_num [spA])
    (by norm_num [clear_volume, get_neighbors_within_radius_no_sort, domains_of_dids,
      uniqNat, shell_surface_distance, burst_objs, lookupL, List.filter, List.any,
      simC5, baseSim, baseWorld, spA, sgC5, partA, partBlock, shellA, wdist, ruleTwo])
    (by
      intro j hj
      have h2 : simC5.dissociation_retry_moves = 2 := rfl
      rw [h2] at hj
      have hcase : j = 0 ∨ j = 1 := by omega
      rcases hcase with h | h <;> subst h <;>
        norm_num [attempt_rejected, separate_loop, SEPARATION_FUEL, World.check_overlap,
          List.any, simC5, sgC5, baseSim, baseWorld, baseOracle, wdist, partA, partBlock,
          spA, shellA, ruleTwo])


theorem propagate_single_scheduler (s : Sim) (sg : Single) (o : Oracle) :
    (propagate_single s sg o).1.scheduler = s.scheduler := by
  simp only [propagate_single]
  split
  · rfl
  · split
    · simp only [move_single_particle, sync_domain_scheduler]
    · simp only [move_single, move_single_shell, move_single_particle, move_shell,
        sync_domain_scheduler]

theorem remove_domain_single_ok (s : Sim) (sg : Single) (s2 : Sim)
    (h : remove_domain s (.single sg) = (s2, .ok ())) :
    s2.domains = removeL s.domains sg.domain_id ∧
    s2.shells = removeL s.shells sg.shell_id ∧
    s2.world = s.world ∧ s2.scheduler = s.scheduler ∧ s2.t = s.t := by
  simp only [remove_domain, Domain.did, Domain.shell_list] at h
  split at h
  · injection h with h1 h2
    exact Except.noConfusion h2
  · simp only [deleteShells] at h
    split at h
    · injection h with h1 h2
      exact Except.noConfusion h2
    · injection h with h1 h2
      subst h1
      exact ⟨rfl, rfl, rfl, rfl, rfl⟩

/-- C4: a `step` that pops a unimolecular zero-product reaction removes
the reactant particle from the world (count down by one), removes the
reactant's domain-table entry and its shell from the container, and adds
no new event - the scheduler is the original minus the popped event, one
element shorter. -/
theorem step_zero_product_reaction (s : Sim) (o : Oracle) (eid : ℕ) (ev : DEvent)
    (sg sg1 : Single) (s1 s2 : Sim) (w3 : World) (eid2 : ℕ) (nev : DEvent)
    (hpop : sched_top s.scheduler = some (eid, ev))
    (hdom : lookupL (step_popped s eid ev).domains ev.did = some (.single sg))
    (hguard : |sg.dt + sg.last_time - (step_popped s eid ev).t| ≤
      ASSERT_DT_TOL * (step_popped s eid ev).t)
    (het : sg.event_type = .SINGLE_REACTION)
    (hprop : propagate_single
      { step_popped s eid ev with
        single_steps_reaction := (step_popped s eid ev).single_steps_reaction + 1 }
      sg o = (s1, .ok sg1))
    (hrd : remove_domain s1 (.single sg1) = (s2, .ok ()))
    (hrule : (o.drawRule sg1).products = [])
    (hrp : s2.world.remove_particle sg1.pid = .ok w3)
    (htop2 : sched_top s2.scheduler = some (eid2, nev))
    (hz : ¬ (nev.time - s2.t = (0 : ℚ)))
    (hnd : (s2.world.particles.map Prod.fst).Nodup)
    (hnds : (s.scheduler.map Prod.fst).Nodup) :
    ∃ s4 : Sim, step s o = (s4, .ok ()) ∧
      s4.world.num_particles + 1 = s.world.num_particles ∧
      lookupL s4.domains sg1.domain_id = none ∧
      lookupL s4.shells sg1.shell_id = none ∧
      s4.scheduler = removeL s.scheduler eid ∧
      s4.scheduler.length + 1 = s.scheduler.length := by
  have hfsr : fire_single_reaction s2 sg1 o =
      ({ s2 with world := w3, last_reaction := some (o.drawRule sg1, []),
                 reaction_events := s2.reaction_events + 1 }, .ok ()) := by
    simp only [fire_single_reaction]
    rw [hrule]
    simp only [fire_zero_product]
    rw [hrp]
  have hfs : fire_single (step_popped s eid ev) sg o =
      ({ s2 with world := w3, last_reaction := some (o.drawRule sg1, []),
                 reaction_events := s2.reaction_events + 1 }, .ok ()) := by
    simp only [fire_single]
    rw [if_neg (not_not_intro hguard), if_pos het, hprop]
    simp only []
    rw [hrd]
    simp only []
    rw [hfsr]
  have heq : step s o =
      ({ s2 with world := w3, last_reaction := some (o.drawRule sg1, []),
                 reaction_events := s2.reaction_events + 1,
                 dt := nev.time - s2.t, zero_steps := 0 }, .ok ()) := by
    simp only [step]
    rw [hpop]
    simp only []
    rw [hdom]
    simp only []
    rw [hfs]
    simp only []
    rw [htop2]
    simp only []
    rw [if_neg hz]
  -- remove_particle unfolded: membership and the removed-particle world
  have hrp' := hrp
  simp only [World.remove_particle] at hrp'
  split at hrp'
  case isFalse => exact Except.noConfusion hrp'
  case isTrue hm =>
  injection hrp' with hw3
  have hrds := remove_domain_single_ok s1 sg1 s2 hrd
  have k1 := propagate_single_keeps
    { step_popped s eid ev with
      single_steps_reaction := (step_popped s eid ev).single_steps_reaction + 1 } sg o
  rw [hprop] at k1
  have k2 := remove_domain_keeps s1 (.single sg1)
  rw [hrd] at k2
  have hcensus : pidsOf s2.world = pidsOf s.world := k2.2.2.1.trans k1.2.2.1
  have ksch := propagate_single_scheduler
    { step_popped s eid ev with
      single_steps_reaction := (step_popped s eid ev).single_steps_reaction + 1 } sg o
  rw [hprop] at ksch
  have hs : s2.scheduler = removeL s.scheduler eid := by
    rw [hrds.2.2.2.1, ksch]
    rfl
  refine ⟨_, heq, ?_, ?_, ?_, ?_, ?_⟩
  · show w3.num_particles + 1 = s.world.num_particles
    rw [num_particles_eq_pids_length s.world, ← hcensus]
    rw [show (pidsOf s2.world).length = s2.world.particles.length from by
      simp [pidsOf]]
    rw [← hw3]
    exact length_removeL s2.world.particles sg1.pid hnd hm
  · show lookupL s2.domains sg1.domain_id = none
    rw [hrds.1, lookupL_removeL_self]
  · show lookupL s2.shells sg1.shell_id = none
    rw [hrds.2.1, lookupL_removeL_self]
  · show s2.scheduler = removeL s.scheduler eid
    exact hs
  · show s2.scheduler.length + 1 = s.scheduler.length
    rw [hs]
    refine length_removeL s.scheduler eid hnds ?_
    rw [lookupL_isSome_iff]
    exact List.mem_map_of_mem Prod.fst (sched_top_mem s.scheduler (eid, ev) hpop)

set_option maxHeartbeats 1000000 in
/-- C4 witness: a two-single world whose due event is a zero-product
decay. -/
theorem step_zero_product_reaction_witness :
    ∃ s4 : Sim, step simC4 baseOracle = (s4, .ok ()) ∧
      s4.world.num_particles + 1 = simC4.world.num_particles ∧
      lookupL s4.domains sg1C4.domain_id = none ∧
      lookupL s4.shells sg1C4.shell_id = none ∧
      s4.scheduler = removeL simC4.scheduler 0 ∧
      s4.scheduler.length + 1 = simC4.scheduler.length :=
  step_zero_product_reaction simC4 baseOracle 0 { time := 0, did := 0 }
    sgC4a sg1C4 s1C4 s2C4 w3C4 1 { time := 10, did := 1 }
    (by norm_num [sched_top, List.foldl, simC4, baseSim])
    rfl
    (by norm_num [sgC4a, step_popped, simC4, baseSim, ASSERT_DT_TOL])
    rfl
    (by norm_num [propagate_single, move_single_particle, move_single, move_single_shell,
      move_shell, sync_domain, init_single, World.check_overlap, World.update_particle,
      World.remove_particle, World.get_species, remove_domain, deleteShells, removeL,
      Domain.shell_list, Domain.did, step_popped, lookupL, upsertL,
      List.any, List.filter, List.find?, s0C4, s1C4, sg1C4, s2C4, w3C4, okOr, simC4,
      sgC4a, sgC4b, partA, partC4b, spA, ruleNone, baseSim, baseWorld, baseOracle, wdist,
      shellA, shellC4b,
      show (EventType.SINGLE_REACTION = EventType.BURST) = False by simp])
    (by norm_num [propagate_single, move_single_particle, move_single, move_single_shell,
      move_shell, sync_domain, init_single, World.check_overlap, World.update_particle,
      World.remove_particle, World.get_species, remove_domain, deleteShells, removeL,
      Domain.shell_list, Domain.did, step_popped, lookupL, upsertL,
      List.any, List.filter, List.find?, s0C4, s1C4, sg1C4, s2C4, w3C4, okOr, simC4,
      sgC4a, sgC4b, partA, partC4b, spA, ruleNone, baseSim, baseWorld, baseOracle, wdist,
      shellA, shellC4b,
      show (EventType.SINGLE_REACTION = EventType.BURST) = False by simp])
    (by norm_num [propagate_single, move_single_particle, move_single, move_single_shell,
      move_shell, sync_domain, init_single, World.check_overlap, World.update_particle,
      World.remove_particle, World.get_species, remove_domain, deleteShells, removeL,
      Domain.shell_list, Domain.did, step_popped, lookupL, upsertL,
      List.any, List.filter, List.find?, s0C4, s1C4, sg1C4, s2C4, w3C4, okOr, simC4,
      sgC4a, sgC4b, partA, partC4b, spA, ruleNone, baseSim, baseWorld, baseOracle, wdist,
      shellA, shellC4b,
      show (EventType.SINGLE_REACTION = EventType.BURST) = False by simp])
    (by norm_num [propagate_single, move_single_particle, move_single, move_single_shell,
      move_shell, sync_domain, init_single, World.check_overlap, World.update_particle,
      World.remove_particle, World.get_species, remove_domain, deleteShells, removeL,
      Domain.shell_list, Domain.did, step_popped, lookupL, upsertL,
      List.any, List.filter, List.find?, s0C4, s1C4, sg1C4, s2C4, w3C4, okOr, simC4,
      sgC4a, sgC4b, partA, partC4b, spA, ruleNone, baseSim, baseWorld, baseOracle, wdist,
      shellA, shellC4b,
      show (EventType.SINGLE_REACTION = EventType.BURST) = False by simp])
    (by norm_num [sched_top, List.foldl, propagate_single, move_single_particle, move_single, move_single_shell,
      move_shell, sync_domain, init_single, World.check_overlap, World.update_particle,
      World.remove_particle, World.get_species, remove_domain, deleteShells, removeL,
      Domain.shell_list, Domain.did, step_popped, lookupL, upsertL,
      List.any, List.filter, List.find?, s0C4, s1C4, sg1C4, s2C4, w3C4, okOr, simC4,
      sgC4a, sgC4b, partA, partC4b, spA, ruleNone, baseSim, baseWorld, baseOracle, wdist,
      shellA, shellC4b,
      show (EventType.SINGLE_REACTION = EventType.BURST) = False by simp])
    (by norm_num [propagate_single, move_single_particle, move_single, move_single_shell,
      move_shell, sync_domain, init_single, World.check_overlap, World.update_particle,
      World.remove_particle, World.get_species, remove_domain, deleteShells, removeL,
      Domain.shell_list, Domain.did, step_popped, lookupL, upsertL,
      List.any, List.filter, List.find?, s0C4, s1C4, sg1C4, s2C4, w3C4, okOr, simC4,
      sgC4a, sgC4b, partA, partC4b, spA, ruleNone, baseSim, baseWorld, baseOracle, wdist,
      shellA, shellC4b,
      show (EventType.SINGLE_REACTION = EventType.BURST) = False by simp])
    (by norm_num [propagate_single, move_single_particle, move_single, move_single_shell,
      move_shell, sync_domain, init_single, World.check_overlap, World.update_particle,
      World.remove_particle, World.get_species, remove_domain, deleteShells, removeL,
      Domain.shell_list, Domain.did, step_popped, lookupL, upsertL,
      List.any, List.filter, List.find?, s0C4, s1C4, sg1C4, s2C4, w3C4, okOr, simC4,
      sgC4a, sgC4b, partA, partC4b, spA, ruleNone, baseSim, baseWorld, baseOracle, wdist,
      shellA, shellC4b,
      show (EventType.SINGLE_REACTION = EventType.BURST) = False by simp])
    (by norm_num [simC4, baseSim])


end Egfrd
